import Mathlib

/-! Polymarket Go client: query encoding and request mediation.

A shallow embedding of the Go package (`client.go`, `types.go`, `markets.go`,
`events.go`, `comments.go`, `search.go`, `volume.go`) and theorems about it.

Conventions of the embedding:

* a Go `string` and a Go `[]byte` are a Lean `String`; a Go `int` is an `Int`
  (the package does no arithmetic on them, they are only compared and printed);
* a Go pointer `*T` used as an optional value is an `Option T`, `nil` being `none`;
* a Go slice `[]T` is a `List T` (a nil slice and an empty slice both have length 0);
* a Go `error` is a value of `Error`; a Go `(T, error)` result is an `Except Error T`;
* the network, `io.ReadAll` and `encoding/json` are the fields of `Env`.
-/

namespace Polymarket

/-! ## Go standard library pieces used by the package -/

/-- The Go function `strconv.Itoa`: the decimal text of an integer, with a leading `-` for
negative ones. -/
def Itoa (i : Int) : String := toString i

/-- The Go function `strconv.FormatBool`. -/
def FormatBool (b : Bool) : String := if b then "true" else "false"

/-- The Go constant `http.StatusOK`. -/
def StatusOK : Int := 200

/-- The Go type `time.Time`, represented by the text that `Format(time.RFC3339)` renders for
it, which is the only thing the package does with a time it is given. -/
structure Time where
  rfc3339 : String
deriving DecidableEq, Repr

/-- The Go call `t.Format(time.RFC3339)`. -/
def Time.Format (t : Time) : String := t.rfc3339

/-- The Go type `url.Values`, a `map[string][]string`: one entry per key, holding the values
added under that key in the order they were added. -/
structure Values where
  entries : List (String × List String)
deriving DecidableEq, Repr

namespace Values

/-- The Go literal `url.Values{}`. -/
def empty : Values := ⟨[]⟩

/-- Appends `value` to the entry of `key`, creating the entry when the key is new. -/
def addEntry : List (String × List String) → String → String → List (String × List String)
  | [], key, value => [(key, [value])]
  | (k, vs) :: rest, key, value =>
    if k = key then (k, vs ++ [value]) :: rest else (k, vs) :: addEntry rest key value

/-- The Go method `v.Add(key, value)`: `v[key] = append(v[key], value)`. -/
def Add (v : Values) (key value : String) : Values := ⟨addEntry v.entries key value⟩

/-- The Go index expression `v[key]`: the values stored under `key`, none when the key is
absent. -/
def lookup (v : Values) (key : String) : List String :=
  match v.entries.find? (fun e => e.1 = key) with
  | some e => e.2
  | none => []

/-- The keys of the map. -/
def keys (v : Values) : List String := v.entries.map Prod.fst

/-- Whether `key` is a key of the map (Go: `_, ok := v[key]`). -/
def Has (v : Values) (key : String) : Bool := decide (key ∈ v.keys)

/-- The Go expression `len(v)`: the number of keys. -/
def len (v : Values) : Nat := v.entries.length

/-- The Go statement `if c { values.Add(key, value) }`. -/
def AddIf (v : Values) (c : Bool) (key value : String) : Values :=
  if c then v.Add key value else v

/-- The Go statement `if p != nil { values.Add(key, f(*p)) }`, the rendered pointee being
given as an optional text. -/
def AddPtr (v : Values) (key : String) (value : Option String) : Values :=
  match value with
  | some s => v.Add key s
  | none => v

/-- The Go statement `if len(xs) > 0 { for _, x := range xs { values.Add(key, x) } }`. -/
def AddEach (v : Values) (key : String) (xs : List String) : Values :=
  xs.foldl (fun acc x => acc.Add key x) v

end Values

/-! ## Options types (`types.go`) -/

/-- Go struct `MarketsParams`. -/
structure MarketsParams where
  Limit : Int := 0
  Offset : Int := 0
  Order : String := ""
  Ascending : Bool := false
  Active : Option Bool := none
  Closed : Option Bool := none
  Archived : Option Bool := none
  Slug : String := ""
  EventID : String := ""
  TagID : String := ""
deriving DecidableEq, Repr

/-- The `*MarketsParams` case of `buildParams`, for a non-nil pointer. -/
def buildMarketsParams (p : MarketsParams) : Values :=
  let values := Values.empty
  let values := values.AddIf (decide (p.Limit > 0)) "limit" (Itoa p.Limit)
  let values := values.AddIf (decide (p.Offset > 0)) "offset" (Itoa p.Offset)
  let values := values.AddIf (decide (p.Order ≠ "")) "order" p.Order
  let values := values.AddIf p.Ascending "ascending" "true"
  let values := values.AddPtr "active" (p.Active.map FormatBool)
  let values := values.AddPtr "closed" (p.Closed.map FormatBool)
  let values := values.AddPtr "archived" (p.Archived.map FormatBool)
  let values := values.AddIf (decide (p.Slug ≠ "")) "slug" p.Slug
  let values := values.AddIf (decide (p.EventID ≠ "")) "event_id" p.EventID
  let values := values.AddIf (decide (p.TagID ≠ "")) "tag_id" p.TagID
  values

/-- Go struct `EventsParams`. -/
structure EventsParams where
  Limit : Int := 0
  Offset : Int := 0
  Order : String := ""
  Ascending : Bool := false
  ID : List String := []
  Slug : List String := []
  Active : Option Bool := none
  Closed : Option Bool := none
  Archived : Option Bool := none
  TagID : Option Int := none
  ExcludeTagID : List Int := []
  RelatedTags : Option Bool := none
  Featured : Option Bool := none
  CYOM : Option Bool := none
  Recurrence : String := ""
  StartDateMin : Option Time := none
  StartDateMax : Option Time := none
  EndDateMin : Option Time := none
  EndDateMax : Option Time := none
deriving DecidableEq, Repr

/-- Go struct `GetEventParams`. -/
structure GetEventParams where
  IncludeChat : Option Bool := none
  IncludeTemplate : Option Bool := none
deriving DecidableEq, Repr

/-- Go struct `GetMarketParams`. -/
structure GetMarketParams where
  IncludeTag : Option Bool := none
deriving DecidableEq, Repr

/-- Go struct `CommentsParams`. -/
structure CommentsParams where
  Limit : Int := 0
  Offset : Int := 0
  Order : String := ""
  Ascending : Bool := false
  ParentEntityType : String := ""
  ParentEntityID : Option Int := none
  GetPositions : Option Bool := none
  HoldersOnly : Option Bool := none
deriving DecidableEq, Repr

/-- Go struct `SearchParams`. -/
structure SearchParams where
  Q : String := ""
  Page : Int := 0
  LimitPerType : Int := 0
  «Sort» : String := ""
  Ascending : Option Bool := none
  Cache : Option Bool := none
  EventsStatus : String := ""
  EventsTag : List String := []
  KeepClosedMarkets : Option Int := none
  SearchTags : Option Bool := none
  SearchProfiles : Option Bool := none
  Recurrence : String := ""
  ExcludeTagID : List Int := []
  Optimized : Option Bool := none
deriving DecidableEq, Repr

/-- The dynamic value handed to `buildParams(params interface{})`: a pointer, possibly nil, to
one of the six options structs, or a value of any other dynamic type (the nil interface
included), for which the type switch has no case. -/
inductive Params where
  | markets (p : Option MarketsParams)
  | events (p : Option EventsParams)
  | getEvent (p : Option GetEventParams)
  | getMarket (p : Option GetMarketParams)
  | comments (p : Option CommentsParams)
  | search (p : Option SearchParams)
  | other
deriving DecidableEq, Repr

/-! ## The option encoder (`client.go`, `buildParams`) -/

/-- The `*EventsParams` case of `buildParams`, for a non-nil pointer. -/
def buildEventsParams (p : EventsParams) : Values :=
  let values := Values.empty
  -- Pagination
  let values := values.AddIf (decide (p.Limit > 0)) "limit" (Itoa p.Limit)
  let values := values.AddIf (decide (p.Offset > 0)) "offset" (Itoa p.Offset)
  -- Sorting
  let values := values.AddIf (decide (p.Order ≠ "")) "order" p.Order
  let values := values.AddIf p.Ascending "ascending" "true"
  -- Basic filters
  let values := values.AddEach "id" p.ID
  let values := values.AddEach "slug" p.Slug
  let values := values.AddPtr "active" (p.Active.map FormatBool)
  let values := values.AddPtr "closed" (p.Closed.map FormatBool)
  let values := values.AddPtr "archived" (p.Archived.map FormatBool)
  -- Advanced filters
  let values := values.AddPtr "tag_id" (p.TagID.map Itoa)
  let values := values.AddEach "exclude_tag_id" (p.ExcludeTagID.map Itoa)
  let values := values.AddPtr "related_tags" (p.RelatedTags.map FormatBool)
  let values := values.AddPtr "featured" (p.Featured.map FormatBool)
  let values := values.AddPtr "cyom" (p.CYOM.map FormatBool)
  let values := values.AddIf (decide (p.Recurrence ≠ "")) "recurrence" p.Recurrence
  -- Date filters
  let values := values.AddPtr "start_date_min" (p.StartDateMin.map Time.Format)
  let values := values.AddPtr "start_date_max" (p.StartDateMax.map Time.Format)
  let values := values.AddPtr "end_date_min" (p.EndDateMin.map Time.Format)
  let values := values.AddPtr "end_date_max" (p.EndDateMax.map Time.Format)
  values

/-- The `*GetEventParams` case of `buildParams`, for a non-nil pointer. -/
def buildGetEventParams (p : GetEventParams) : Values :=
  let values := Values.empty
  let values := values.AddPtr "include_chat" (p.IncludeChat.map FormatBool)
  let values := values.AddPtr "include_template" (p.IncludeTemplate.map FormatBool)
  values

/-- The `*GetMarketParams` case of `buildParams`, for a non-nil pointer. -/
def buildGetMarketParams (p : GetMarketParams) : Values :=
  let values := Values.empty
  let values := values.AddPtr "include_tag" (p.IncludeTag.map FormatBool)
  values

/-- The `*CommentsParams` case of `buildParams`, for a non-nil pointer. -/
def buildCommentsParams (p : CommentsParams) : Values :=
  let values := Values.empty
  -- Pagination
  let values := values.AddIf (decide (p.Limit > 0)) "limit" (Itoa p.Limit)
  let values := values.AddIf (decide (p.Offset > 0)) "offset" (Itoa p.Offset)
  -- Sorting
  let values := values.AddIf (decide (p.Order ≠ "")) "order" p.Order
  let values := values.AddIf p.Ascending "ascending" "true"
  -- Filters
  let values := values.AddIf (decide (p.ParentEntityType ≠ "")) "parent_entity_type"
    p.ParentEntityType
  let values := values.AddPtr "parent_entity_id" (p.ParentEntityID.map Itoa)
  let values := values.AddPtr "get_positions" (p.GetPositions.map FormatBool)
  let values := values.AddPtr "holders_only" (p.HoldersOnly.map FormatBool)
  values

/-- The `*SearchParams` case of `buildParams`, for a non-nil pointer. -/
def buildSearchParams (p : SearchParams) : Values :=
  let values := Values.empty
  -- Required
  let values := values.AddIf (decide (p.Q ≠ "")) "q" p.Q
  -- Pagination
  let values := values.AddIf (decide (p.Page > 0)) "page" (Itoa p.Page)
  let values := values.AddIf (decide (p.LimitPerType > 0)) "limit_per_type" (Itoa p.LimitPerType)
  -- Sorting
  let values := values.AddIf (decide (p.«Sort» ≠ "")) "sort" p.«Sort»
  let values := values.AddPtr "ascending" (p.Ascending.map FormatBool)
  -- Filters and options
  let values := values.AddPtr "cache" (p.Cache.map FormatBool)
  let values := values.AddIf (decide (p.EventsStatus ≠ "")) "events_status" p.EventsStatus
  let values := values.AddEach "events_tag" p.EventsTag
  let values := values.AddPtr "keep_closed_markets" (p.KeepClosedMarkets.map Itoa)
  let values := values.AddPtr "search_tags" (p.SearchTags.map FormatBool)
  let values := values.AddPtr "search_profiles" (p.SearchProfiles.map FormatBool)
  let values := values.AddIf (decide (p.Recurrence ≠ "")) "recurrence" p.Recurrence
  let values := values.AddEach "exclude_tag_id" (p.ExcludeTagID.map Itoa)
  let values := values.AddPtr "optimized" (p.Optimized.map FormatBool)
  values

/-- The Go function `buildParams`: a type switch over the dynamic type of `params`; every
case returns the empty map for a nil pointer, and a type without a case leaves the map
empty. -/
def buildParams : Params → Values
  | .markets none => Values.empty
  | .markets (some p) => buildMarketsParams p
  | .events none => Values.empty
  | .events (some p) => buildEventsParams p
  | .getEvent none => Values.empty
  | .getEvent (some p) => buildGetEventParams p
  | .getMarket none => Values.empty
  | .getMarket (some p) => buildGetMarketParams p
  | .comments none => Values.empty
  | .comments (some p) => buildCommentsParams p
  | .search none => Values.empty
  | .search (some p) => buildSearchParams p
  | .other => Values.empty

/-! ## Entities (`types.go`) -/

/-- Go struct `Token`. -/
structure Token where
  ID : String
  TokenID : String
  Outcome : String
  Price : String
  Winner : Option Bool

/-- Go struct `Series`. -/
structure Series where
  ID : String
  Title : String
  Slug : String
  Description : String
  Image : String
  Active : Bool

/-- Go struct `Tag`. -/
structure Tag where
  ID : String
  Name : String

/-- Go struct `Category`. -/
structure Category where
  ID : String
  Name : String

mutual
/-- Go struct `Market`; it holds events, which hold markets. -/
inductive Market where
  | mk (ID Question Slug Description : String) (StartDate EndDate : Option Time)
      (Image Icon : String) (Active Closed : Bool) (MarketMakerAddress : String)
      (MarketType Outcomes : String) (Volume : String) (Volume24hr LiquidityNum : Float)
      (Tokens : List Token) (Events : List Event) (Categories : List Category)
      (Tags : List Tag) (QuestionID ConditionID UmaAddress : String)
      (CreatedAt UpdatedAt : Option Time)
/-- Go struct `Event`. -/
inductive Event where
  | mk (ID Title Slug Description : String) (StartDate EndDate : Option Time)
      (Image Icon : String) (Active Closed Archived Featured : Bool)
      (Volume Volume24hr Liquidity : Float)
      (CommentsEnabled NegRisk AutomaticallyResolved CYOM : Bool)
      (Markets : List Market) (Series : Option Series) (Categories : List Category)
      (Tags : List Tag) (Recurrence : String) (CreatedAt UpdatedAt : Option Time)
end

/-- Go struct `UserProfile`. -/
structure UserProfile where
  ID : String
  Username : String
  DisplayName : String
  Avatar : String
  Bio : String
  Website : String
  Verified : Bool

/-- Go struct `Reaction`. -/
structure Reaction where
  ID : String
  «Type» : String
  UserAddress : String
  CreatedAt : Option Time

/-- Go struct `Comment`. -/
structure Comment where
  ID : String
  Body : String
  ParentEntityType : String
  ParentEntityID : String
  UserAddress : String
  CreatedAt : Option Time
  Profile : Option UserProfile
  Reactions : List Reaction
  ReportCount : Int
  ReactionCount : Int

/-- Go struct `Pagination`. -/
structure Pagination where
  HasMore : Bool
  TotalResults : Int

/-- Go struct `SearchResults`. -/
structure SearchResults where
  Events : List Event
  Tags : List Tag
  Profiles : List UserProfile
  Pagination : Pagination

/-- Go struct `MarketVolume`. -/
structure MarketVolume where
  Market : String
  Value : Float

/-- Go struct `LiveVolume`. -/
structure LiveVolume where
  Total : Float
  Markets : List MarketVolume

/-- Go struct `APIError`. -/
structure APIError where
  Code : Int
  Message : String
deriving DecidableEq, Repr

/-! ## Errors -/

/-- The Go `error` values that the package returns: the two kinds `fmt.Errorf` builds, a
`*APIError`, and an error value produced outside the package (`net/http`, `io`,
`encoding/json`), known by its text. -/
inductive Error where
  | errorString (s : String)
  | wrapError (msg : String) (err : Error)
  | apiError (e : APIError)
  | external (msg : String)
deriving DecidableEq, Repr

set_option linter.dupNamespace false in
/-- The Go method `Error()` of an error value; for a `*APIError` it is
`func (e *APIError) Error() string { return e.Message }`. -/
def Error.Error : Error → String
  | .errorString s => s
  | .wrapError msg _ => msg
  | .apiError e => e.Message
  | .external msg => msg

/-- The Go call `fmt.Errorf(format, args...)` with no `%w` verb, `s` being the formatted
text. -/
def Errorf (s : String) : Error := .errorString s

/-- The Go call `fmt.Errorf(pre + "%w", err)`: the text of `err` follows `pre`, and `err` is
wrapped. -/
def Errorfw (pre : String) (err : Error) : Error := .wrapError (pre ++ err.Error) err

/-! ## URL query encoding (`net/url`) -/

/-- The digit `"0123456789ABCDEF"[n]`. -/
def upperhex (n : Nat) : Char := if n < 10 then Char.ofNat (48 + n) else Char.ofNat (55 + n)

/-- The escape of one character in a query component (`url.QueryEscape`): ASCII letters,
digits and `-_.~` stay, a space becomes `+`, and every other byte of the UTF-8 encoding
becomes `%XX`. -/
def queryEscapeChar (c : Char) : List Char :=
  if c = ' ' then ['+']
  else if c.isAlphanum || c = '-' || c = '_' || c = '.' || c = '~' then [c]
  else (String.utf8EncodeChar c).flatMap
    (fun b => ['%', upperhex (b.toNat / 16), upperhex (b.toNat % 16)])

/-- The Go function `url.QueryEscape`. -/
def QueryEscape (s : String) : String := ⟨s.data.flatMap queryEscapeChar⟩

/-- The pairs `key=value` of one key, both escaped, in the order of the values. -/
def encodeKey (key : String) (vs : List String) : List String :=
  vs.map (fun v => QueryEscape key ++ "=" ++ QueryEscape v)

/-- The order of Go strings (`a < b`), byte by byte; on UTF-8 text it is the order of the code
points. -/
def stringLess : List Char → List Char → Bool
  | _, [] => false
  | [], _ :: _ => true
  | a :: as, b :: bs =>
    if a.toNat < b.toNat then true else if a.toNat = b.toNat then stringLess as bs else false

/-- Inserts a key into a sorted list of keys. -/
def insertKey (k : String) : List String → List String
  | [] => [k]
  | x :: xs => if stringLess x.data k.data then x :: insertKey k xs else k :: x :: xs

/-- The Go call `slices.Sort(keys)`. -/
def sortKeys : List String → List String
  | [] => []
  | k :: ks => insertKey k (sortKeys ks)

/-- The Go method `v.Encode()`: the keys sorted, and for each key its values in order, as
`key=value` joined by `&`. -/
def Values.Encode (v : Values) : String :=
  "&".intercalate ((sortKeys v.keys).flatMap (fun k => encodeKey k (v.lookup k)))

/-! ## The client and the world it talks to (`client.go`) -/

/-- Go constant `DefaultBaseURL`. -/
def DefaultBaseURL : String := "https://gamma-api.polymarket.com"

/-- Go constant `DefaultTimeout`, `30 * time.Second`, a `time.Duration` in nanoseconds. -/
def DefaultTimeout : Int := 30 * 1000000000

/-- Go struct `Client`; of its `httpClient` only the `Timeout` is ever set. -/
structure Client where
  baseURL : String
  Timeout : Int
deriving DecidableEq, Repr

/-- Go function `NewClient`. -/
def NewClient : Client := { baseURL := DefaultBaseURL, Timeout := DefaultTimeout }

/-- Go function `NewClientWithOptions`. -/
def NewClientWithOptions (baseURL : String) (timeout : Int) : Client :=
  let baseURL := if baseURL = "" then DefaultBaseURL else baseURL
  { baseURL := baseURL, Timeout := timeout }

/-- Go method `SetTimeout`. -/
def Client.SetTimeout (c : Client) (timeout : Int) : Client := { c with Timeout := timeout }

/-- The request that `makeRequest` hands to `httpClient.Do`. -/
structure Request where
  Method : String
  URL : String
  Header : List (String × String)
deriving DecidableEq, Repr

/-- What `httpClient.Do` answers: the status code, and what `io.ReadAll(resp.Body)` gives,
the body or the text of a read error. -/
structure Response where
  StatusCode : Int
  Body : Except String String

/-- Everything outside the package: the HTTP library, the remote services and the JSON
decoder. An error of the outside is given by its text.

* `NewRequest method url` is the error of `http.NewRequest(method, url, nil)`, if any;
* `Do timeout req` is `httpClient.Do(req)` under the client's timeout;
* `Unmarshal...` is `json.Unmarshal(body, &x)` for a fresh `x` of the type named;
* `DataAPIBaseURL` is the constant of that name, which `volume.go` uses and the sources at
  hand do not declare. -/
structure Env where
  NewRequest : String → String → Option String
  Do : Int → Request → Except String Response
  UnmarshalAPIError : String → Except String APIError
  UnmarshalMarkets : String → Except String (List Market)
  UnmarshalMarket : String → Except String Market
  UnmarshalEvents : String → Except String (List Event)
  UnmarshalEvent : String → Except String Event
  UnmarshalComments : String → Except String (List Comment)
  UnmarshalSearchResults : String → Except String SearchResults
  UnmarshalLiveVolumes : String → Except String (List LiveVolume)
  DataAPIBaseURL : String

/-- One request handed to the request dispatcher: the arguments of one invocation of
`makeRequest` (or `makeRequestWithBaseURL`) together with the base address it uses. -/
structure Call where
  baseURL : String
  method : String
  endpoint : String
  params : Values
deriving DecidableEq, Repr

/-- The outcome of an operation of the client: the Go result `(value, error)`, and the
requests it dispatched, in order. -/
structure Run (α : Type) where
  result : Except Error α
  calls : List Call

/-- The address `makeRequest` builds: `baseURL + endpoint`, followed by `?` and the encoded
query when `len(params) > 0`. -/
def fullURL (baseURL endpoint : String) (params : Values) : String :=
  let fullURL := baseURL ++ endpoint
  if params.len > 0 then fullURL ++ ("?" ++ params.Encode) else fullURL

/-- The request `makeRequest` creates with `http.NewRequest(method, fullURL, nil)` and sets
its two headers on. -/
def newRequest (method url : String) : Request :=
  { Method := method, URL := url,
    Header := [("Content-Type", "application/json"),
               ("User-Agent", "polymarket-go-client/1.0")] }

/-- Go method `makeRequest`. -/
def Client.makeRequest (env : Env) (c : Client) (method endpoint : String) (params : Values) :
    Run String :=
  let url := fullURL c.baseURL endpoint params
  let result : Except Error String :=
    match env.NewRequest method url with
    | some err => .error (Errorfw "failed to create request: " (.external err))
    | none =>
      let req := newRequest method url
      match env.Do c.Timeout req with
      | .error err => .error (Errorfw "failed to make request: " (.external err))
      | .ok resp =>
        match resp.Body with
        | .error err => .error (Errorfw "failed to read response body: " (.external err))
        | .ok body =>
          if resp.StatusCode ≠ StatusOK then
            match env.UnmarshalAPIError body with
            | .error _ =>
              .error (Errorf ("API returned status " ++ Itoa resp.StatusCode ++ ": " ++ body))
            | .ok apiErr => .error (.apiError { apiErr with Code := resp.StatusCode })
          else
            .ok body
  { result := result, calls := [{ baseURL := c.baseURL, method := method, endpoint := endpoint,
                                  params := params }] }

/-- Modelled from the spec: `makeRequestWithBaseURL`, which `volume.go` calls and the sources
at hand do not define. The spec has the request dispatcher accept a base address, and has the
live-volume endpoints use a second base address; so this is `makeRequest` with the given base
address in place of the client's own. -/
def Client.makeRequestWithBaseURL (env : Env) (c : Client) (baseURL method endpoint : String)
    (params : Values) : Run String :=
  Client.makeRequest env { c with baseURL := baseURL } method endpoint params

/-- Go function `boolPtr` (`main.go`). -/
def boolPtr (b : Bool) : Option Bool := some b

/-! ## Markets (`markets.go`) -/

/-- Go method `GetMarkets`. -/
def Client.GetMarkets (env : Env) (c : Client) (params : Option MarketsParams) :
    Run (List Market) :=
  let r := c.makeRequest env "GET" "/markets" (buildParams (.markets params))
  match r.result with
  | .error err => ⟨.error (Errorfw "failed to fetch markets: " err), r.calls⟩
  | .ok body =>
    match env.UnmarshalMarkets body with
    | .error err =>
      ⟨.error (Errorfw "failed to parse markets response: " (.external err)), r.calls⟩
    | .ok markets => ⟨.ok markets, r.calls⟩

/-- Go method `GetMarketWithParams`. -/
def Client.GetMarketWithParams (env : Env) (c : Client) (marketID : String)
    (params : Option GetMarketParams) : Run Market :=
  let endpoint := "/markets/" ++ marketID
  let r := c.makeRequest env "GET" endpoint (buildParams (.getMarket params))
  match r.result with
  | .error err => ⟨.error (Errorfw ("failed to fetch market " ++ marketID ++ ": ") err), r.calls⟩
  | .ok body =>
    match env.UnmarshalMarket body with
    | .error err =>
      ⟨.error (Errorfw "failed to parse market response: " (.external err)), r.calls⟩
    | .ok market => ⟨.ok market, r.calls⟩

/-- Go method `GetMarket`. -/
def Client.GetMarket (env : Env) (c : Client) (marketID : String) : Run Market :=
  c.GetMarketWithParams env marketID none

/-- Go method `GetMarketBySlug`. -/
def Client.GetMarketBySlug (env : Env) (c : Client) (slug : String) : Run Market :=
  let params : MarketsParams := { Slug := slug, Limit := 1 }
  let r := c.GetMarkets env (some params)
  match r.result with
  | .error err =>
    ⟨.error (Errorfw ("failed to fetch market by slug " ++ slug ++ ": ") err), r.calls⟩
  | .ok markets =>
    match markets with
    | [] => ⟨.error (Errorf ("market with slug " ++ slug ++ " not found")), r.calls⟩
    | m :: _ => ⟨.ok m, r.calls⟩

/-! ## Events (`events.go`)

The method `GetEventBySlug` is not embedded: its options literal
`&EventsParams{Slug: slug, Limit: 1}` gives the `string` `slug` to the field `Slug`, which
is a `[]string`, so the source does not fix what the method sends. -/

/-- Go method `GetEvents`. -/
def Client.GetEvents (env : Env) (c : Client) (params : Option EventsParams) :
    Run (List Event) :=
  let r := c.makeRequest env "GET" "/events" (buildParams (.events params))
  match r.result with
  | .error err => ⟨.error (Errorfw "failed to fetch events: " err), r.calls⟩
  | .ok body =>
    match env.UnmarshalEvents body with
    | .error err =>
      ⟨.error (Errorfw "failed to parse events response: " (.external err)), r.calls⟩
    | .ok events => ⟨.ok events, r.calls⟩

/-- Go method `GetEventWithParams`. -/
def Client.GetEventWithParams (env : Env) (c : Client) (eventID : String)
    (params : Option GetEventParams) : Run Event :=
  let endpoint := "/events/" ++ eventID
  let r := c.makeRequest env "GET" endpoint (buildParams (.getEvent params))
  match r.result with
  | .error err => ⟨.error (Errorfw ("failed to fetch event " ++ eventID ++ ": ") err), r.calls⟩
  | .ok body =>
    match env.UnmarshalEvent body with
    | .error err =>
      ⟨.error (Errorfw "failed to parse event response: " (.external err)), r.calls⟩
    | .ok event => ⟨.ok event, r.calls⟩

/-- Go method `GetEvent`. -/
def Client.GetEvent (env : Env) (c : Client) (eventID : String) : Run Event :=
  c.GetEventWithParams env eventID none

/-- Go method `GetEventMarkets`. -/
def Client.GetEventMarkets (env : Env) (c : Client) (eventID : String) : Run (List Market) :=
  let params : MarketsParams := { EventID := eventID }
  c.GetMarkets env (some params)

/-! ## Comments (`comments.go`) -/

/-- Go method `GetComments`. -/
def Client.GetComments (env : Env) (c : Client) (params : Option CommentsParams) :
    Run (List Comment) :=
  let r := c.makeRequest env "GET" "/comments" (buildParams (.comments params))
  match r.result with
  | .error err => ⟨.error (Errorfw "failed to fetch comments: " err), r.calls⟩
  | .ok body =>
    match env.UnmarshalComments body with
    | .error err =>
      ⟨.error (Errorfw "failed to parse comments response: " (.external err)), r.calls⟩
    | .ok comments => ⟨.ok comments, r.calls⟩

/-- Go method `GetMarketComments`. -/
def Client.GetMarketComments (env : Env) (c : Client) (marketID : Int)
    (params : Option CommentsParams) : Run (List Comment) :=
  let params : CommentsParams := match params with
    | none => {}
    | some p => p
  let params := { params with ParentEntityType := "market", ParentEntityID := some marketID }
  c.GetComments env (some params)

/-- Go method `GetEventComments`. -/
def Client.GetEventComments (env : Env) (c : Client) (eventID : Int)
    (params : Option CommentsParams) : Run (List Comment) :=
  let params : CommentsParams := match params with
    | none => {}
    | some p => p
  let params := { params with ParentEntityType := "Event", ParentEntityID := some eventID }
  c.GetComments env (some params)

/-- Go method `GetSeriesComments`. -/
def Client.GetSeriesComments (env : Env) (c : Client) (seriesID : Int)
    (params : Option CommentsParams) : Run (List Comment) :=
  let params : CommentsParams := match params with
    | none => {}
    | some p => p
  let params := { params with ParentEntityType := "Series", ParentEntityID := some seriesID }
  c.GetComments env (some params)

/-! ## Search (`search.go`) -/

/-- Go method `Search`. -/
def Client.Search (env : Env) (c : Client) (params : Option SearchParams) : Run SearchResults :=
  match params with
  | none => ⟨.error (Errorf "search query (Q) is required"), []⟩
  | some p =>
    if p.Q = "" then ⟨.error (Errorf "search query (Q) is required"), []⟩
    else
      let r := c.makeRequest env "GET" "/public-search" (buildParams (.search (some p)))
      match r.result with
      | .error err => ⟨.error (Errorfw "failed to perform search: " err), r.calls⟩
      | .ok body =>
        match env.UnmarshalSearchResults body with
        | .error err =>
          ⟨.error (Errorfw "failed to parse search results: " (.external err)), r.calls⟩
        | .ok results => ⟨.ok results, r.calls⟩

/-- Go method `SearchEvents`. -/
def Client.SearchEvents (env : Env) (c : Client) (query : String)
    (params : Option SearchParams) : Run (List Event) :=
  let params : SearchParams := match params with
    | none => {}
    | some p => p
  let params :=
    { params with Q := query, SearchTags := boolPtr false, SearchProfiles := boolPtr false }
  let r := c.Search env (some params)
  match r.result with
  | .error err => ⟨.error err, r.calls⟩
  | .ok results => ⟨.ok results.Events, r.calls⟩

/-- Go method `SearchProfiles`. -/
def Client.SearchProfiles (env : Env) (c : Client) (query : String)
    (params : Option SearchParams) : Run (List UserProfile) :=
  let params : SearchParams := match params with
    | none => {}
    | some p => p
  let params :=
    { params with Q := query, SearchTags := boolPtr false, SearchProfiles := boolPtr true }
  let r := c.Search env (some params)
  match r.result with
  | .error err => ⟨.error err, r.calls⟩
  | .ok results => ⟨.ok results.Profiles, r.calls⟩

/-- Go method `SearchTags`. -/
def Client.SearchTags (env : Env) (c : Client) (query : String)
    (params : Option SearchParams) : Run (List Tag) :=
  let params : SearchParams := match params with
    | none => {}
    | some p => p
  let params :=
    { params with Q := query, SearchTags := boolPtr true, SearchProfiles := boolPtr false }
  let r := c.Search env (some params)
  match r.result with
  | .error err => ⟨.error err, r.calls⟩
  | .ok results => ⟨.ok results.Tags, r.calls⟩

/-- Go method `SearchByTag`. -/
def Client.SearchByTag (env : Env) (c : Client) (query : String) (tags : List String)
    (params : Option SearchParams) : Run (List Event) :=
  let params : SearchParams := match params with
    | none => {}
    | some p => p
  let params := { params with Q := query, EventsTag := tags }
  let r := c.Search env (some params)
  match r.result with
  | .error err => ⟨.error err, r.calls⟩
  | .ok results => ⟨.ok results.Events, r.calls⟩

/-! ## Live volume (`volume.go`) -/

/-- Go method `GetLiveVolume`. -/
def Client.GetLiveVolume (env : Env) (c : Client) (eventID : Int) : Run LiveVolume :=
  if eventID < 1 then ⟨.error (Errorf ("event ID must be >= 1, got " ++ Itoa eventID)), []⟩
  else
    -- Build query parameters
    let params := Values.empty
    let params := params.Add "id" (Itoa eventID)
    -- Make request to the data API
    let r := c.makeRequestWithBaseURL env env.DataAPIBaseURL "GET" "/live-volume" params
    match r.result with
    | .error err =>
      ⟨.error (Errorfw ("failed to fetch live volume for event " ++ Itoa eventID ++ ": ") err),
        r.calls⟩
    | .ok body =>
      match env.UnmarshalLiveVolumes body with
      | .error err =>
        ⟨.error (Errorfw "failed to parse live volume response: " (.external err)), r.calls⟩
      | .ok volumes =>
        match volumes with
        | [] => ⟨.error (Errorf ("no volume data found for event " ++ Itoa eventID)), r.calls⟩
        | v :: _ => ⟨.ok v, r.calls⟩

/-- The loop of `GetLiveVolumeMultiple` over `eventIDs`: it returns the error on the first
identifier below 1, and adds every identifier before that one to `params`. -/
def liveVolumeParams : List Int → Values → Except Error Values
  | [], params => .ok params
  | id :: rest, params =>
    if id < 1 then .error (Errorf ("all event IDs must be >= 1, got " ++ Itoa id))
    else liveVolumeParams rest (params.Add "id" (Itoa id))

/-- Go method `GetLiveVolumeMultiple`. -/
def Client.GetLiveVolumeMultiple (env : Env) (c : Client) (eventIDs : List Int) :
    Run (List LiveVolume) :=
  if eventIDs.length = 0 then ⟨.error (Errorf "at least one event ID is required"), []⟩
  else
    -- Build query parameters for multiple IDs
    match liveVolumeParams eventIDs Values.empty with
    | .error err => ⟨.error err, []⟩
    | .ok params =>
      -- Make request to the data API
      let r := c.makeRequestWithBaseURL env env.DataAPIBaseURL "GET" "/live-volume" params
      match r.result with
      | .error err => ⟨.error (Errorfw "failed to fetch live volume for events: " err), r.calls⟩
      | .ok body =>
        match env.UnmarshalLiveVolumes body with
        | .error err =>
          ⟨.error (Errorfw "failed to parse live volume response: " (.external err)), r.calls⟩
        | .ok volumes => ⟨.ok volumes, r.calls⟩

/-- Go method `GetEventTotalVolume`. -/
def Client.GetEventTotalVolume (env : Env) (c : Client) (eventID : Int) : Run Float :=
  let r := c.GetLiveVolume env eventID
  match r.result with
  | .error err => ⟨.error err, r.calls⟩
  | .ok volume => ⟨.ok volume.Total, r.calls⟩

/-- Go method `GetEventMarketVolumes`. -/
def Client.GetEventMarketVolumes (env : Env) (c : Client) (eventID : Int) :
    Run (List MarketVolume) :=
  let r := c.GetLiveVolume env eventID
  match r.result with
  | .error err => ⟨.error err, r.calls⟩
  | .ok volume => ⟨.ok volume.Markets, r.calls⟩

/-! ## Sample values, for instances of the theorems -/

/-- A market with identifier, question and slug given and every other field zero. -/
def sampleMarket (id question slug : String) : Market :=
  Market.mk id question slug "" none none "" "" true false "" "" "" "" 0 0 [] [] [] [] "" "" ""
    none none

/-- An outside world that accepts every request and answers it with the given status code
and body; the body decodes as an `APIError`, as a list of markets and as a list of live
volumes as given, and as nothing else. -/
def sampleEnv (status : Int) (body : String) (apiErr : Except String APIError)
    (markets : Except String (List Market)) (volumes : Except String (List LiveVolume)) : Env :=
  { NewRequest := fun _ _ => none
    Do := fun _ _ => .ok { StatusCode := status, Body := .ok body }
    UnmarshalAPIError := fun _ => apiErr
    UnmarshalMarkets := fun _ => markets
    UnmarshalMarket := fun _ => .error "json: cannot unmarshal"
    UnmarshalEvents := fun _ => .error "json: cannot unmarshal"
    UnmarshalEvent := fun _ => .error "json: cannot unmarshal"
    UnmarshalComments := fun _ => .error "json: cannot unmarshal"
    UnmarshalSearchResults := fun _ => .error "json: cannot unmarshal"
    UnmarshalLiveVolumes := fun _ => volumes
    DataAPIBaseURL := "https://data-api.polymarket.com" }

/-- An outside world answering 404 with a body that is not JSON. -/
def envNotFoundHTML : Env :=
  sampleEnv 404 "<html>Not Found</html>"
    (.error "invalid character '<' looking for beginning of value")
    (.error "invalid character '<' looking for beginning of value")
    (.error "invalid character '<' looking for beginning of value")

/-- A JSON error body naming the code 7. -/
def notFoundBody : String := "\x7b\"code\":7,\"message\":\"market not found\"\x7d"

/-- An outside world answering 404 with a JSON error body that names another code. -/
def envNotFoundJSON : Env :=
  sampleEnv 404 notFoundBody
    (.ok { Code := 7, Message := "market not found" })
    (.error "json: cannot unmarshal object") (.error "json: cannot unmarshal object")

/-- An outside world answering 200 with a body that decodes to the one market given. -/
def envOneMarket (m : Market) : Env :=
  sampleEnv 200 "[{}]" (.error "json: cannot unmarshal array") (.ok [m])
    (.error "json: cannot unmarshal")

/-- An outside world answering every request with the given status code and the body `[]`. -/
def envEmptyList (status : Int) : Env :=
  sampleEnv status "[]" (.error "json: cannot unmarshal array") (.ok []) (.ok [])

/-! ## The fields of the options types, with their keys -/

/-- The fields of `MarketsParams` in declaration order: the key of the field (the name in its
`json` tag, which is the key `buildParams` uses) and whether the field is unset, that is a
zero integer, an empty string, a false plain boolean, a nil pointer or an empty sequence. -/
def MarketsParams.fields (p : MarketsParams) : List (String × Bool) :=
  [("limit", decide (p.Limit = 0)), ("offset", decide (p.Offset = 0)),
   ("order", decide (p.Order = "")), ("ascending", !p.Ascending),
   ("active", p.Active.isNone), ("closed", p.Closed.isNone), ("archived", p.Archived.isNone),
   ("slug", decide (p.Slug = "")), ("event_id", decide (p.EventID = "")),
   ("tag_id", decide (p.TagID = ""))]

/-- The fields of `EventsParams`: key and whether unset. -/
def EventsParams.fields (p : EventsParams) : List (String × Bool) :=
  [("limit", decide (p.Limit = 0)), ("offset", decide (p.Offset = 0)),
   ("order", decide (p.Order = "")), ("ascending", !p.Ascending),
   ("id", p.ID.isEmpty), ("slug", p.Slug.isEmpty),
   ("active", p.Active.isNone), ("closed", p.Closed.isNone), ("archived", p.Archived.isNone),
   ("tag_id", p.TagID.isNone), ("exclude_tag_id", p.ExcludeTagID.isEmpty),
   ("related_tags", p.RelatedTags.isNone), ("featured", p.Featured.isNone),
   ("cyom", p.CYOM.isNone), ("recurrence", decide (p.Recurrence = "")),
   ("start_date_min", p.StartDateMin.isNone), ("start_date_max", p.StartDateMax.isNone),
   ("end_date_min", p.EndDateMin.isNone), ("end_date_max", p.EndDateMax.isNone)]

/-- The fields of `GetEventParams`: key and whether unset. -/
def GetEventParams.fields (p : GetEventParams) : List (String × Bool) :=
  [("include_chat", p.IncludeChat.isNone), ("include_template", p.IncludeTemplate.isNone)]

/-- The fields of `GetMarketParams`: key and whether unset. -/
def GetMarketParams.fields (p : GetMarketParams) : List (String × Bool) :=
  [("include_tag", p.IncludeTag.isNone)]

/-- The fields of `CommentsParams`: key and whether unset. -/
def CommentsParams.fields (p : CommentsParams) : List (String × Bool) :=
  [("limit", decide (p.Limit = 0)), ("offset", decide (p.Offset = 0)),
   ("order", decide (p.Order = "")), ("ascending", !p.Ascending),
   ("parent_entity_type", decide (p.ParentEntityType = "")),
   ("parent_entity_id", p.ParentEntityID.isNone),
   ("get_positions", p.GetPositions.isNone), ("holders_only", p.HoldersOnly.isNone)]

/-- The fields of `SearchParams`: key and whether unset. -/
def SearchParams.fields (p : SearchParams) : List (String × Bool) :=
  [("q", decide (p.Q = "")), ("page", decide (p.Page = 0)),
   ("limit_per_type", decide (p.LimitPerType = 0)), ("sort", decide (p.«Sort» = "")),
   ("ascending", p.Ascending.isNone), ("cache", p.Cache.isNone),
   ("events_status", decide (p.EventsStatus = "")), ("events_tag", p.EventsTag.isEmpty),
   ("keep_closed_markets", p.KeepClosedMarkets.isNone), ("search_tags", p.SearchTags.isNone),
   ("search_profiles", p.SearchProfiles.isNone), ("recurrence", decide (p.Recurrence = "")),
   ("exclude_tag_id", p.ExcludeTagID.isEmpty), ("optimized", p.Optimized.isNone)]

/-- The fields of an options value: those of the struct pointed to; a nil pointer stands for
the options with every field unset. A value of another type has no fields. -/
def Params.fields : Params → List (String × Bool)
  | .markets p => (p.getD {}).fields
  | .events p => (p.getD {}).fields
  | .getEvent p => (p.getD {}).fields
  | .getMarket p => (p.getD {}).fields
  | .comments p => (p.getD {}).fields
  | .search p => (p.getD {}).fields
  | .other => []

/-- The optional boolean fields of `MarketsParams` that are held as a pointer: the key and the
pointer. -/
def MarketsParams.boolFields (p : MarketsParams) : List (String × Option Bool) :=
  [("active", p.Active), ("closed", p.Closed), ("archived", p.Archived)]

/-- The optional boolean fields of `EventsParams` held as a pointer. -/
def EventsParams.boolFields (p : EventsParams) : List (String × Option Bool) :=
  [("active", p.Active), ("closed", p.Closed), ("archived", p.Archived),
   ("related_tags", p.RelatedTags), ("featured", p.Featured), ("cyom", p.CYOM)]

/-- The optional boolean fields of `GetEventParams` held as a pointer. -/
def GetEventParams.boolFields (p : GetEventParams) : List (String × Option Bool) :=
  [("include_chat", p.IncludeChat), ("include_template", p.IncludeTemplate)]

/-- The optional boolean fields of `GetMarketParams` held as a pointer. -/
def GetMarketParams.boolFields (p : GetMarketParams) : List (String × Option Bool) :=
  [("include_tag", p.IncludeTag)]

/-- The optional boolean fields of `CommentsParams` held as a pointer. -/
def CommentsParams.boolFields (p : CommentsParams) : List (String × Option Bool) :=
  [("get_positions", p.GetPositions), ("holders_only", p.HoldersOnly)]

/-- The optional boolean fields of `SearchParams` held as a pointer. -/
def SearchParams.boolFields (p : SearchParams) : List (String × Option Bool) :=
  [("ascending", p.Ascending), ("cache", p.Cache), ("search_tags", p.SearchTags),
   ("search_profiles", p.SearchProfiles), ("optimized", p.Optimized)]

/-- The pointer-held boolean fields of an options value; a nil options pointer has none
present. -/
def Params.boolFields : Params → List (String × Option Bool)
  | .markets p => (p.getD {}).boolFields
  | .events p => (p.getD {}).boolFields
  | .getEvent p => (p.getD {}).boolFields
  | .getMarket p => (p.getD {}).boolFields
  | .comments p => (p.getD {}).boolFields
  | .search p => (p.getD {}).boolFields
  | .other => []

/-- The comments options equal to `p`, a nil pointer standing for the empty options, except
that `ParentEntityType` is `lit` and `ParentEntityID` points to `id`. -/
def withParent (p : Option CommentsParams) (lit : String) (id : Int) : CommentsParams :=
  { (p.getD {}) with ParentEntityType := lit, ParentEntityID := some id }

/-- The search options equal to `p`, a nil pointer standing for the empty options, except
that `Q` is `query` and the flags `SearchTags` and `SearchProfiles` point to the values
given. -/
def withFlags (p : Option SearchParams) (query : String) (tags profiles : Bool) :
    SearchParams :=
  { (p.getD {}) with Q := query, SearchTags := some tags, SearchProfiles := some profiles }

/-- What a query `v` holds for a plain integer pagination field of value `n` and key `key`
when zero is left out: for `n = 0` the key is absent, and for a positive `n` the key holds
the decimal text of `n` alone. -/
def paginationEncoded (v : Values) (key : String) (n : Int) : Prop :=
  (n = 0 → v.Has key = false ∧ v.lookup key = []) ∧ (0 < n → v.lookup key = [Itoa n])

/-- The search options equal to `p`, a nil pointer standing for the empty options, except
that `Q` is `query` and `EventsTag` is `tags`. -/
def withTags (p : Option SearchParams) (query : String) (tags : List String) : SearchParams :=
  { (p.getD {}) with Q := query, EventsTag := tags }

/-- What a query `v` holds for a plain integer field of value `n` and key `key` when only
positive values are written: the key is present exactly when `n` is positive, and then it
holds the decimal text of `n` alone. -/
def positiveOnly (v : Values) (key : String) (n : Int) : Prop :=
  v.Has key = decide (0 < n) ∧ v.lookup key = if 0 < n then [Itoa n] else []

/-! ## The interface table of the specification -/

/-- The options variants `buildParams` has a case for. -/
inductive Variant where
  | markets
  | events
  | getEvent
  | getMarket
  | comments
  | search
deriving DecidableEq, Repr

/-- The variant of an options value, if its type is one `buildParams` has a case for. -/
def Params.variant : Params → Option Variant
  | .markets _ => some .markets
  | .events _ => some .events
  | .getEvent _ => some .getEvent
  | .getMarket _ => some .getMarket
  | .comments _ => some .comments
  | .search _ => some .search
  | .other => none

/-- The query vocabulary of each endpoint as the interface table of the specification lists
it (`GET /markets`, `GET /events`, `GET /events/{id}`, `GET /markets/{id}`, `GET /comments`,
`GET /public-search`), with `start_date_min/max` and `end_date_min/max` written out as four
keys. -/
def vocabulary : Variant → List String
  | .markets =>
    ["limit", "offset", "order", "ascending", "active", "closed", "archived", "slug",
     "event_id", "tag_id"]
  | .events =>
    ["limit", "offset", "order", "ascending", "id", "slug", "active", "closed", "archived",
     "tag_id", "exclude_tag_id", "related_tags", "featured", "cyom", "recurrence",
     "start_date_min", "start_date_max", "end_date_min", "end_date_max"]
  | .getEvent => ["include_chat", "include_template"]
  | .getMarket => ["include_tag"]
  | .comments =>
    ["limit", "offset", "order", "ascending", "parent_entity_type", "parent_entity_id",
     "get_positions", "holders_only"]
  | .search =>
    ["q", "page", "limit_per_type", "sort", "ascending", "cache", "events_status",
     "events_tag", "keep_closed_markets", "search_tags", "search_profiles", "recurrence",
     "exclude_tag_id", "optimized"]

/-- An options value of each variant with every field set. -/
def fullParams : Variant → Params
  | .markets => .markets (some
      { Limit := 10, Offset := 20, Order := "volume", Ascending := true, Active := some true,
        Closed := some false, Archived := some false, Slug := "rain", EventID := "7",
        TagID := "3" })
  | .events => .events (some
      { Limit := 10, Offset := 20, Order := "volume", Ascending := true, ID := ["1", "2"],
        Slug := ["rain"], Active := some true, Closed := some false, Archived := some false,
        TagID := some 3, ExcludeTagID := [4, 5], RelatedTags := some true,
        Featured := some false, CYOM := some false, Recurrence := "daily",
        StartDateMin := some ⟨"2024-01-01T00:00:00Z"⟩,
        StartDateMax := some ⟨"2024-02-01T00:00:00Z"⟩,
        EndDateMin := some ⟨"2024-03-01T00:00:00Z"⟩,
        EndDateMax := some ⟨"2024-04-01T00:00:00Z"⟩ })
  | .getEvent => .getEvent (some { IncludeChat := some true, IncludeTemplate := some false })
  | .getMarket => .getMarket (some { IncludeTag := some true })
  | .comments => .comments (some
      { Limit := 10, Offset := 20, Order := "createdAt", Ascending := true,
        ParentEntityType := "Event", ParentEntityID := some 12, GetPositions := some true,
        HoldersOnly := some false })
  | .search => .search (some
      { Q := "rain", Page := 2, LimitPerType := 5, «Sort» := "volume", Ascending := some false,
        Cache := some true, EventsStatus := "active", EventsTag := ["weather"],
        KeepClosedMarkets := some 0, SearchTags := some true, SearchProfiles := some false,
        Recurrence := "daily", ExcludeTagID := [4], Optimized := some true })

/-! ## The order in which a query is written -/

/-- The pairs of key and value in the order in which `Encode` writes them: the keys sorted,
and under each key its values in the order they were added. -/
def Values.pairs (v : Values) : List (String × String) :=
  (sortKeys v.keys).flatMap (fun k => (v.lookup k).map (fun x => (k, x)))

/-- The order of keys in which `Encode` writes them: `a` is not after `b`, that is `b < a`
does not hold for the Go strings. -/
def keyLE (a b : String) : Prop := stringLess b.data a.data = false

/-- The text `key=value` that `Encode` writes for a pair, both sides escaped. -/
def encodePair (kx : String × String) : String :=
  QueryEscape kx.1 ++ "=" ++ QueryEscape kx.2

/-! ## More sample values -/

/-- A live volume with the total given and one market. -/
def sampleVolume (total : Float) : LiveVolume :=
  { Total := total, Markets := [{ Market := "0xabc", Value := total }] }

/-- An outside world answering 200 with a body that decodes to the live volumes given. -/
def envVolumes (vs : List LiveVolume) : Env :=
  sampleEnv 200 "[...]" (.error "json: cannot unmarshal array")
    (.error "json: cannot unmarshal") (.ok vs)

/-- An outside world that answers every request with status 200 and, as body, the address
the request was made to. -/
def envEcho : Env :=
  { NewRequest := fun _ _ => none
    Do := fun _ req => .ok { StatusCode := 200, Body := .ok req.URL }
    UnmarshalAPIError := fun _ => .error "json: cannot unmarshal"
    UnmarshalMarkets := fun _ => .error "json: cannot unmarshal"
    UnmarshalMarket := fun _ => .error "json: cannot unmarshal"
    UnmarshalEvents := fun _ => .error "json: cannot unmarshal"
    UnmarshalEvent := fun _ => .error "json: cannot unmarshal"
    UnmarshalComments := fun _ => .error "json: cannot unmarshal"
    UnmarshalSearchResults := fun _ => .error "json: cannot unmarshal"
    UnmarshalLiveVolumes := fun _ => .error "json: cannot unmarshal"
    DataAPIBaseURL := "https://data-api.polymarket.com" }

/-! ## The requests that reach the transport -/

/-- The requests that one invocation of the request dispatcher hands to `httpClient.Do`:
`makeRequest` returns before `httpClient.Do` when `http.NewRequest` rejects the method or
the address, and hands over the one request built otherwise. -/
def Call.requests (call : Call) (env : Env) : List Request :=
  match env.NewRequest call.method (fullURL call.baseURL call.endpoint call.params) with
  | some _ => []
  | none => [newRequest call.method (fullURL call.baseURL call.endpoint call.params)]

/-- The requests an operation hands to `httpClient.Do`: those of its invocations of the
request dispatcher, in order. -/
def Run.requests {α : Type} (r : Run α) (env : Env) : List Request :=
  r.calls.flatMap (fun call => call.requests env)

/-- The Go function `ishex` of `net/url`. -/
def ishex (c : Char) : Bool :=
  (48 ≤ c.toNat && c.toNat ≤ 57) || (97 ≤ c.toNat && c.toNat ≤ 102) ||
    (65 ≤ c.toNat && c.toNat ≤ 70)

/-- The first malformed percent-escape of an address before its query or fragment, if there
is one: a `%` that is not followed by two hexadecimal digits, with the up to two characters
after it. `url.Parse` fails on such an address with `invalid URL escape`. -/
def badEscape : List Char → Option String
  | [] => none
  | c :: rest =>
    if c = '?' || c = '#' then none
    else if c = '%' then
      match rest with
      | a :: b :: rest' => if ishex a && ishex b then badEscape rest' else some ⟨[c, a, b]⟩
      | _ => some ⟨c :: rest⟩
    else badEscape rest

/-- An outside world in which `http.NewRequest` rejects an address with a malformed
percent-escape before its query, with the error `url.Parse` gives for it; every other
request is accepted and answered with status 200 and the body `[]`. -/
def envStrict : Env :=
  { envEmptyList 200 with
    NewRequest := fun _ url =>
      (badEscape url.data).map
        (fun bad => "parse \"" ++ url ++ "\": invalid URL escape \"" ++ bad ++ "\"") }

/-! ## Facts about `url.Values` -/

theorem mem_keys_addEntry (es : List (String × List String)) (k x k' : String) :
    k' ∈ (Values.addEntry es k x).map Prod.fst ↔ k' = k ∨ k' ∈ es.map Prod.fst := by
  induction es with
  | nil => simp [Values.addEntry]
  | cons e es ih =>
    obtain ⟨a, vs⟩ := e
    by_cases h : a = k
    · subst h
      simp [Values.addEntry]
    · simp only [Values.addEntry, if_neg h, List.map_cons, List.mem_cons, ih]
      tauto

@[simp] theorem Has_empty (k : String) : Values.empty.Has k = false := by
  simp [Values.Has, Values.keys, Values.empty]

@[simp] theorem Has_Add (v : Values) (k x k' : String) :
    (v.Add k x).Has k' = (decide (k' = k) || v.Has k') := by
  simp only [Values.Has, Values.keys, Values.Add]
  rw [Bool.eq_iff_iff]
  simp only [decide_eq_true_eq, Bool.or_eq_true]
  exact mem_keys_addEntry _ _ _ _

@[simp] theorem Has_AddIf (v : Values) (c : Bool) (k x k' : String) :
    (v.AddIf c k x).Has k' = ((c && decide (k' = k)) || v.Has k') := by
  cases c <;> simp [Values.AddIf]

@[simp] theorem Has_AddPtr (v : Values) (k : String) (o : Option String) (k' : String) :
    (v.AddPtr k o).Has k' = ((o.isSome && decide (k' = k)) || v.Has k') := by
  cases o <;> simp [Values.AddPtr]

@[simp] theorem Has_AddEach (v : Values) (k : String) (xs : List String) (k' : String) :
    (v.AddEach k xs).Has k' = ((!xs.isEmpty && decide (k' = k)) || v.Has k') := by
  induction xs generalizing v with
  | nil => simp [Values.AddEach]
  | cons x xs ih =>
    have h := ih (v.Add k x)
    simp only [Values.AddEach, List.foldl_cons] at h ⊢
    rw [h, Has_Add]
    cases xs <;> simp [Bool.or_assoc]

theorem find_addEntry (es : List (String × List String)) (k x k' : String) :
    ((Values.addEntry es k x).find? (fun e => e.1 = k')) =
      if k' = k then
        some (k, (match es.find? (fun e => e.1 = k') with
          | some e => e.2
          | none => []) ++ [x])
      else es.find? (fun e => e.1 = k') := by
  induction es with
  | nil =>
    by_cases h : k' = k
    · subst h; simp [Values.addEntry]
    · have h' : ¬ k = k' := fun e => h e.symm
      simp [Values.addEntry, h, h']
  | cons e es ih =>
    obtain ⟨a, vs⟩ := e
    by_cases h : a = k
    · subst h
      by_cases h2 : k' = a
      · subst h2; simp [Values.addEntry]
      · have h2' : ¬ a = k' := fun e => h2 e.symm
        simp [Values.addEntry, h2, h2']
    · by_cases h2 : a = k'
      · subst h2
        have h' : ¬ k = a := fun e => h e.symm
        simp [Values.addEntry, h, h']
      · simp only [Values.addEntry, if_neg h]
        rw [List.find?_cons_of_neg _ (by simpa using h2), ih,
          List.find?_cons_of_neg _ (by simpa using h2)]

@[simp] theorem lookup_empty (k : String) : Values.empty.lookup k = [] := by
  simp [Values.lookup, Values.empty]

@[simp] theorem lookup_Add (v : Values) (k x k' : String) :
    (v.Add k x).lookup k' = if k' = k then v.lookup k' ++ [x] else v.lookup k' := by
  simp only [Values.lookup, Values.Add, find_addEntry]
  by_cases h : k' = k <;> simp [h]

@[simp] theorem lookup_AddIf (v : Values) (c : Bool) (k x k' : String) :
    (v.AddIf c k x).lookup k' =
      if k' = k then v.lookup k' ++ (if c then [x] else []) else v.lookup k' := by
  cases c <;> simp [Values.AddIf]

@[simp] theorem lookup_AddPtr (v : Values) (k : String) (o : Option String) (k' : String) :
    (v.AddPtr k o).lookup k' = if k' = k then v.lookup k' ++ o.toList else v.lookup k' := by
  cases o <;> simp [Values.AddPtr]

@[simp] theorem lookup_AddEach (v : Values) (k : String) (xs : List String) (k' : String) :
    (v.AddEach k xs).lookup k' = if k' = k then v.lookup k' ++ xs else v.lookup k' := by
  induction xs generalizing v with
  | nil => simp [Values.AddEach]
  | cons x xs ih =>
    have h := ih (v.Add k x)
    simp only [Values.AddEach, List.foldl_cons] at h ⊢
    rw [h, lookup_Add]
    by_cases hk : k' = k <;> simp [hk]

theorem lookup_of_Has_false (v : Values) (k : String) (h : v.Has k = false) :
    v.lookup k = [] := by
  have hk : k ∉ v.entries.map Prod.fst := by
    simpa [Values.Has, Values.keys] using h
  have hf : v.entries.find? (fun e => e.1 = k) = none := by
    rw [List.find?_eq_none]
    intro e he
    have hne : e.1 ≠ k := fun heq => hk (heq ▸ List.mem_map_of_mem Prod.fst he)
    simpa using hne
  simp [Values.lookup, hf]

theorem Has_false_of_unset (params : Params) (key : String)
    (h : (key, true) ∈ params.fields) : (buildParams params).Has key = false := by
  cases params with
  | other => simp [Params.fields] at h
  | markets p =>
    cases p with
    | none => simp [buildParams]
    | some p =>
      simp only [Params.fields, Option.getD, MarketsParams.fields, List.mem_cons,
        Prod.mk.injEq, List.mem_singleton, List.not_mem_nil, or_false] at h
      casesm* _ ∨ _
      all_goals
        rename_i h
        obtain ⟨rfl, h⟩ := h
        simp_all [buildParams, buildMarketsParams]
  | events p =>
    cases p with
    | none => simp [buildParams]
    | some p =>
      simp only [Params.fields, Option.getD, EventsParams.fields, List.mem_cons,
        Prod.mk.injEq, List.mem_singleton, List.not_mem_nil, or_false] at h
      casesm* _ ∨ _
      all_goals
        rename_i h
        obtain ⟨rfl, h⟩ := h
        simp_all [buildParams, buildEventsParams]
  | getEvent p =>
    cases p with
    | none => simp [buildParams]
    | some p =>
      simp only [Params.fields, Option.getD, GetEventParams.fields, List.mem_cons,
        Prod.mk.injEq, List.mem_singleton, List.not_mem_nil, or_false] at h
      casesm* _ ∨ _
      all_goals
        rename_i h
        obtain ⟨rfl, h⟩ := h
        simp_all [buildParams, buildGetEventParams]
  | getMarket p =>
    cases p with
    | none => simp [buildParams]
    | some p =>
      simp only [Params.fields, Option.getD, GetMarketParams.fields, List.mem_cons,
        Prod.mk.injEq, List.mem_singleton, List.not_mem_nil, or_false] at h
      obtain ⟨rfl, h⟩ := h
      simp_all [buildParams, buildGetMarketParams]
  | comments p =>
    cases p with
    | none => simp [buildParams]
    | some p =>
      simp only [Params.fields, Option.getD, CommentsParams.fields, List.mem_cons,
        Prod.mk.injEq, List.mem_singleton, List.not_mem_nil, or_false] at h
      casesm* _ ∨ _
      all_goals
        rename_i h
        obtain ⟨rfl, h⟩ := h
        simp_all [buildParams, buildCommentsParams]
  | search p =>
    cases p with
    | none => simp [buildParams]
    | some p =>
      simp only [Params.fields, Option.getD, SearchParams.fields, List.mem_cons,
        Prod.mk.injEq, List.mem_singleton, List.not_mem_nil, or_false] at h
      casesm* _ ∨ _
      all_goals
        rename_i h
        obtain ⟨rfl, h⟩ := h
        simp_all [buildParams, buildSearchParams]

/-! ## Facts about the requests the operations dispatch -/

theorem calls_makeRequest (env : Env) (c : Client) (method endpoint : String)
    (params : Values) :
    (c.makeRequest env method endpoint params).calls =
      [{ baseURL := c.baseURL, method := method, endpoint := endpoint, params := params }] :=
  rfl

theorem calls_makeRequestWithBaseURL (env : Env) (c : Client)
    (baseURL method endpoint : String) (params : Values) :
    (c.makeRequestWithBaseURL env baseURL method endpoint params).calls =
      [{ baseURL := baseURL, method := method, endpoint := endpoint, params := params }] :=
  rfl

theorem calls_GetMarkets (env : Env) (c : Client) (params : Option MarketsParams) :
    (c.GetMarkets env params).calls =
      [{ baseURL := c.baseURL, method := "GET", endpoint := "/markets",
         params := buildParams (.markets params) }] := by
  simp only [Client.GetMarkets]
  split
  · rfl
  · split <;> rfl

theorem calls_GetEvents (env : Env) (c : Client) (params : Option EventsParams) :
    (c.GetEvents env params).calls =
      [{ baseURL := c.baseURL, method := "GET", endpoint := "/events",
         params := buildParams (.events params) }] := by
  simp only [Client.GetEvents]
  split
  · rfl
  · split <;> rfl

theorem calls_Search (env : Env) (c : Client) (p : SearchParams) (hQ : p.Q ≠ "") :
    (c.Search env (some p)).calls =
      [{ baseURL := c.baseURL, method := "GET", endpoint := "/public-search",
         params := buildParams (.search (some p)) }] := by
  simp only [Client.Search, if_neg hQ]
  split
  · rfl
  · split <;> rfl

theorem AddEach_single (key : String) (ys xs : List String) :
    (Values.mk [(key, ys)]).AddEach key xs = Values.mk [(key, ys ++ xs)] := by
  induction xs generalizing ys with
  | nil => simp [Values.AddEach]
  | cons x xs ih =>
    have h := ih (ys ++ [x])
    simp only [Values.AddEach, List.foldl_cons] at h ⊢
    simpa [Values.Add, Values.addEntry] using h

theorem liveVolumeParams_ok (ids : List Int) (v : Values) (h : ∀ id ∈ ids, 1 ≤ id) :
    liveVolumeParams ids v = .ok (v.AddEach "id" (ids.map Itoa)) := by
  induction ids generalizing v with
  | nil => rfl
  | cons id rest ih =>
    have h1 : ¬ id < 1 := not_lt.mpr (h id (List.mem_cons_self _ _))
    simp only [liveVolumeParams, if_neg h1]
    rw [ih _ (fun i hi => h i (List.mem_cons_of_mem _ hi))]
    rfl

theorem liveVolumeParams_error (ids : List Int) (v : Values) (h : ∃ id ∈ ids, id < 1) :
    ∃ id ∈ ids, id < 1 ∧
      liveVolumeParams ids v = .error (Errorf ("all event IDs must be >= 1, got " ++ Itoa id)) := by
  induction ids generalizing v with
  | nil => simp at h
  | cons id rest ih =>
    by_cases h1 : id < 1
    · exact ⟨id, List.mem_cons_self _ _, h1, by simp [liveVolumeParams, h1]⟩
    · have hrest : ∃ i ∈ rest, i < 1 := by
        obtain ⟨i, hi, hlt⟩ := h
        rcases List.mem_cons.mp hi with rfl | hi
        · exact absurd hlt h1
        · exact ⟨i, hi, hlt⟩
      obtain ⟨i, hi, hlt, he⟩ := ih (v.Add "id" (Itoa id)) hrest
      exact ⟨i, List.mem_cons_of_mem _ hi, hlt, by simp only [liveVolumeParams, if_neg h1, he]⟩

theorem liveVolumeParams_first (ids : List Int) (h : ids ≠ []) (hpos : ∀ id ∈ ids, 1 ≤ id) :
    liveVolumeParams ids Values.empty = .ok (Values.mk [("id", ids.map Itoa)]) := by
  rw [liveVolumeParams_ok ids _ hpos]
  cases ids with
  | nil => exact absurd rfl h
  | cons id rest =>
    have := AddEach_single "id" [Itoa id] (rest.map Itoa)
    simpa [Values.AddEach, Values.Add, Values.addEntry, Values.empty] using this

theorem calls_GetLiveVolumeMultiple (env : Env) (c : Client) (ids : List Int) (h : ids ≠ [])
    (hpos : ∀ id ∈ ids, 1 ≤ id) :
    (c.GetLiveVolumeMultiple env ids).calls =
      [{ baseURL := env.DataAPIBaseURL, method := "GET", endpoint := "/live-volume",
         params := Values.mk [("id", ids.map Itoa)] }] := by
  have hlen : ¬ ids.length = 0 := by simpa using h
  simp only [Client.GetLiveVolumeMultiple, if_neg hlen, liveVolumeParams_first ids h hpos]
  split
  · rfl
  · split <;> rfl

theorem calls_GetLiveVolume (env : Env) (c : Client) (id : Int) (h : ¬ id < 1) :
    (c.GetLiveVolume env id).calls =
      [{ baseURL := env.DataAPIBaseURL, method := "GET", endpoint := "/live-volume",
         params := Values.mk [("id", [Itoa id])] }] := by
  simp only [Client.GetLiveVolume, if_neg h]
  split
  · rfl
  · split
    · rfl
    · split <;> rfl

theorem calls_GetMarketBySlug (env : Env) (c : Client) (s : String) :
    (c.GetMarketBySlug env s).calls =
      [{ baseURL := c.baseURL, method := "GET", endpoint := "/markets",
         params := buildParams (.markets (some { Slug := s, Limit := 1 })) }] := by
  rw [← calls_GetMarkets env c (some { Slug := s, Limit := 1 })]
  simp only [Client.GetMarketBySlug]
  split
  · rfl
  · split <;> rfl

theorem buildParams_market_slug (s : String) (hs : s ≠ "") :
    buildParams (.markets (some { Slug := s, Limit := 1 })) =
      Values.mk [("limit", ["1"]), ("slug", [s])] := by
  have h1 : Itoa 1 = "1" := by decide
  simp [buildParams, buildMarketsParams, Values.AddIf, Values.AddPtr, Values.Add,
    Values.addEntry, Values.empty, hs, h1]

theorem result_makeRequest_ok (env : Env) (c : Client) (method endpoint : String)
    (params : Values) (resp : Response) (body : String)
    (hNew : env.NewRequest method (fullURL c.baseURL endpoint params) = none)
    (hDo : env.Do c.Timeout (newRequest method (fullURL c.baseURL endpoint params)) = .ok resp)
    (hBody : resp.Body = .ok body) (hStatus : resp.StatusCode = StatusOK) :
    (c.makeRequest env method endpoint params).result = .ok body := by
  simp [Client.makeRequest, hNew, hDo, hBody, hStatus]

theorem result_makeRequestWithBaseURL_ok (env : Env) (c : Client)
    (baseURL method endpoint : String) (params : Values) (resp : Response) (body : String)
    (hNew : env.NewRequest method (fullURL baseURL endpoint params) = none)
    (hDo : env.Do c.Timeout (newRequest method (fullURL baseURL endpoint params)) = .ok resp)
    (hBody : resp.Body = .ok body) (hStatus : resp.StatusCode = StatusOK) :
    (c.makeRequestWithBaseURL env baseURL method endpoint params).result = .ok body :=
  result_makeRequest_ok env { c with baseURL := baseURL } method endpoint params resp body
    hNew hDo hBody hStatus

theorem result_GetLiveVolume_ok (env : Env) (c : Client) (id : Int) (resp : Response)
    (body : String) (vs : List LiveVolume) (hid : 1 ≤ id)
    (hNew : env.NewRequest "GET"
      (fullURL env.DataAPIBaseURL "/live-volume" (Values.mk [("id", [Itoa id])])) = none)
    (hDo : env.Do c.Timeout (newRequest "GET"
      (fullURL env.DataAPIBaseURL "/live-volume" (Values.mk [("id", [Itoa id])]))) = .ok resp)
    (hBody : resp.Body = .ok body) (hStatus : resp.StatusCode = StatusOK)
    (hDecode : env.UnmarshalLiveVolumes body = .ok vs) :
    (c.GetLiveVolume env id).result =
      match vs with
      | [] => .error (.errorString ("no volume data found for event " ++ Itoa id))
      | v :: _ => .ok v := by
  have hlt : ¬ id < 1 := not_lt.mpr hid
  have hreq := result_makeRequestWithBaseURL_ok env c env.DataAPIBaseURL "GET" "/live-volume"
    (Values.mk [("id", [Itoa id])]) resp body hNew hDo hBody hStatus
  have hparams : Values.empty.Add "id" (Itoa id) = Values.mk [("id", [Itoa id])] := rfl
  simp only [Client.GetLiveVolume, if_neg hlt, hparams, hreq, hDecode]
  cases vs <;> rfl

theorem calls_GetComments (env : Env) (c : Client) (params : Option CommentsParams) :
    (c.GetComments env params).calls =
      [{ baseURL := c.baseURL, method := "GET", endpoint := "/comments",
         params := buildParams (.comments params) }] := by
  simp only [Client.GetComments]
  split
  · rfl
  · split <;> rfl

theorem params_of_Search_call (env : Env) (c : Client) (p : SearchParams) (call : Call)
    (h : call ∈ (c.Search env (some p)).calls) :
    call.params = buildParams (.search (some p)) ∧ call.endpoint = "/public-search" := by
  by_cases hQ : p.Q = ""
  · simp [Client.Search, hQ] at h
  · rw [calls_Search env c p hQ] at h
    simp only [List.mem_singleton] at h
    subst h
    exact ⟨rfl, rfl⟩

theorem calls_SearchEvents (env : Env) (c : Client) (query : String)
    (p : Option SearchParams) :
    (c.SearchEvents env query p).calls =
      (c.Search env (some (withFlags p query false false))).calls := by
  cases p <;> simp only [Client.SearchEvents, withFlags, boolPtr, Option.getD] <;> split <;> rfl

theorem calls_SearchProfiles (env : Env) (c : Client) (query : String)
    (p : Option SearchParams) :
    (c.SearchProfiles env query p).calls =
      (c.Search env (some (withFlags p query false true))).calls := by
  cases p <;> simp only [Client.SearchProfiles, withFlags, boolPtr, Option.getD] <;> split <;>
    rfl

theorem calls_SearchTags (env : Env) (c : Client) (query : String)
    (p : Option SearchParams) :
    (c.SearchTags env query p).calls =
      (c.Search env (some (withFlags p query true false))).calls := by
  cases p <;> simp only [Client.SearchTags, withFlags, boolPtr, Option.getD] <;> split <;> rfl

theorem lookup_flags (p : Option SearchParams) (query : String) (tags profiles : Bool) :
    (buildParams (.search (some (withFlags p query tags profiles)))).lookup "search_tags" =
        [FormatBool tags] ∧
      (buildParams (.search (some (withFlags p query tags profiles)))).lookup
        "search_profiles" = [FormatBool profiles] := by
  constructor <;> simp [buildParams, buildSearchParams, withFlags]

theorem lookup_of_boolField (params : Params) (key : String) (b : Bool)
    (h : (key, some b) ∈ params.boolFields) :
    (buildParams params).lookup key = [FormatBool b] := by
  cases params with
  | other => simp [Params.boolFields] at h
  | markets p =>
    cases p with
    | none => simp [Params.boolFields, MarketsParams.boolFields] at h
    | some p =>
      simp only [Params.boolFields, Option.getD, MarketsParams.boolFields, List.mem_cons,
        Prod.mk.injEq, List.mem_singleton, List.not_mem_nil, or_false] at h
      casesm* _ ∨ _
      all_goals
        rename_i h
        obtain ⟨rfl, h⟩ := h
        simp [buildParams, buildMarketsParams, ← h]
  | events p =>
    cases p with
    | none => simp [Params.boolFields, EventsParams.boolFields] at h
    | some p =>
      simp only [Params.boolFields, Option.getD, EventsParams.boolFields, List.mem_cons,
        Prod.mk.injEq, List.mem_singleton, List.not_mem_nil, or_false] at h
      casesm* _ ∨ _
      all_goals
        rename_i h
        obtain ⟨rfl, h⟩ := h
        simp [buildParams, buildEventsParams, ← h]
  | getEvent p =>
    cases p with
    | none => simp [Params.boolFields, GetEventParams.boolFields] at h
    | some p =>
      simp only [Params.boolFields, Option.getD, GetEventParams.boolFields, List.mem_cons,
        Prod.mk.injEq, List.mem_singleton, List.not_mem_nil, or_false] at h
      casesm* _ ∨ _
      all_goals
        rename_i h
        obtain ⟨rfl, h⟩ := h
        simp [buildParams, buildGetEventParams, ← h]
  | getMarket p =>
    cases p with
    | none => simp [Params.boolFields, GetMarketParams.boolFields] at h
    | some p =>
      simp only [Params.boolFields, Option.getD, GetMarketParams.boolFields, List.mem_cons,
        Prod.mk.injEq, List.mem_singleton, List.not_mem_nil, or_false] at h
      obtain ⟨rfl, h⟩ := h
      simp [buildParams, buildGetMarketParams, ← h]
  | comments p =>
    cases p with
    | none => simp [Params.boolFields, CommentsParams.boolFields] at h
    | some p =>
      simp only [Params.boolFields, Option.getD, CommentsParams.boolFields, List.mem_cons,
        Prod.mk.injEq, List.mem_singleton, List.not_mem_nil, or_false] at h
      casesm* _ ∨ _
      all_goals
        rename_i h
        obtain ⟨rfl, h⟩ := h
        simp [buildParams, buildCommentsParams, ← h]
  | search p =>
    cases p with
    | none => simp [Params.boolFields, SearchParams.boolFields] at h
    | some p =>
      simp only [Params.boolFields, Option.getD, SearchParams.boolFields, List.mem_cons,
        Prod.mk.injEq, List.mem_singleton, List.not_mem_nil, or_false] at h
      casesm* _ ∨ _
      all_goals
        rename_i h
        obtain ⟨rfl, h⟩ := h
        simp [buildParams, buildSearchParams, ← h]

theorem stringLess_irrefl (a : List Char) : stringLess a a = false := by
  induction a with
  | nil => rfl
  | cons x xs ih => simp [stringLess, ih]

theorem stringLess_asymm (a b : List Char) (h : stringLess a b = true) :
    stringLess b a = false := by
  induction a generalizing b with
  | nil =>
    cases b with
    | nil => simp [stringLess] at h
    | cons y ys => simp [stringLess]
  | cons x xs ih =>
    cases b with
    | nil => simp [stringLess] at h
    | cons y ys =>
      simp only [stringLess] at h ⊢
      by_cases h1 : x.toNat < y.toNat
      · have h2 : ¬ y.toNat < x.toNat := by omega
        have h3 : ¬ y.toNat = x.toNat := by omega
        simp [h2, h3]
      · by_cases h4 : x.toNat = y.toNat
        · simp only [h1, h4, if_true, if_false, lt_self_iff_false] at h
          have := ih ys h
          simp [h4, this]
        · simp [h1, h4] at h

theorem stringLess_cotrans (a b c : List Char) (h : stringLess a c = true) :
    stringLess a b = true ∨ stringLess b c = true := by
  induction a generalizing b c with
  | nil =>
    cases c with
    | nil => simp [stringLess] at h
    | cons z zs =>
      cases b with
      | nil => right; simp [stringLess]
      | cons y ys => left; simp [stringLess]
  | cons x xs ih =>
    cases c with
    | nil => simp [stringLess] at h
    | cons z zs =>
      cases b with
      | nil => right; simp [stringLess]
      | cons y ys =>
        simp only [stringLess] at h ⊢
        by_cases hxy : x.toNat < y.toNat
        · left; simp [hxy]
        · by_cases hyz : y.toNat < z.toNat
          · right; simp [hyz]
          · by_cases hxz : x.toNat < z.toNat
            · omega
            · by_cases hxz' : x.toNat = z.toNat
              · simp only [hxz, hxz', if_true, if_false, lt_self_iff_false] at h
                have hxy' : x.toNat = y.toNat := by omega
                have hyz' : y.toNat = z.toNat := by omega
                rcases ih ys zs h with h' | h'
                · left; simp [hxy', h']
                · right; simp [hyz', h']
              · simp [hxz, hxz'] at h

theorem mem_insertKey (k x : String) (xs : List String) :
    x ∈ insertKey k xs ↔ x = k ∨ x ∈ xs := by
  induction xs with
  | nil => simp [insertKey]
  | cons y ys ih =>
    simp only [insertKey]
    split
    · simp only [List.mem_cons, ih]
      tauto
    · simp

theorem insertKey_perm (k : String) (xs : List String) : (insertKey k xs).Perm (k :: xs) := by
  induction xs with
  | nil => exact List.Perm.refl _
  | cons y ys ih =>
    simp only [insertKey]
    split
    · exact (List.Perm.cons y ih).trans (List.Perm.swap k y ys)
    · exact List.Perm.refl _

theorem sortKeys_perm (ks : List String) : (sortKeys ks).Perm ks := by
  induction ks with
  | nil => exact List.Perm.refl _
  | cons k ks ih => exact (insertKey_perm k (sortKeys ks)).trans (List.Perm.cons k ih)

theorem insertKey_sorted (k : String) (xs : List String) (h : xs.Pairwise keyLE) :
    (insertKey k xs).Pairwise keyLE := by
  induction xs with
  | nil => simp [insertKey]
  | cons y ys ih =>
    have hy : ∀ z ∈ ys, keyLE y z := (List.pairwise_cons.mp h).1
    have hys : ys.Pairwise keyLE := (List.pairwise_cons.mp h).2
    simp only [insertKey]
    by_cases hlt : stringLess y.data k.data = true
    · rw [if_pos hlt, List.pairwise_cons]
      refine ⟨?_, ih hys⟩
      intro z hz
      rcases (mem_insertKey k z ys).mp hz with hzk | hz
      · rw [hzk]
        exact stringLess_asymm _ _ hlt
      · exact hy z hz
    · rw [if_neg hlt, List.pairwise_cons]
      refine ⟨?_, h⟩
      intro z hz
      rcases List.mem_cons.mp hz with hzy | hz
      · rw [hzy]
        simpa [keyLE] using hlt
      · have hyz : stringLess z.data y.data = false := hy z hz
        cases hzk : stringLess z.data k.data with
        | false => exact hzk
        | true =>
          rcases stringLess_cotrans _ y.data _ hzk with h1 | h1
          · rw [hyz] at h1
            cases h1
          · exact absurd h1 hlt

theorem sortKeys_sorted (ks : List String) : (sortKeys ks).Pairwise keyLE := by
  induction ks with
  | nil => simp [sortKeys]
  | cons k ks ih => exact insertKey_sorted k _ ih

theorem pairs_sorted (v : Values) : (v.pairs.map Prod.fst).Pairwise keyLE := by
  simp only [Values.pairs, List.map_flatMap, List.map_map]
  rw [List.pairwise_flatMap]
  constructor
  · intro k _
    rw [List.pairwise_map]
    exact List.pairwise_of_forall (fun _ _ => stringLess_irrefl k.data)
  · refine (sortKeys_sorted v.keys).imp ?_
    intro a b hab x hx y hy
    simp only [List.mem_map, Function.comp] at hx hy
    obtain ⟨_, _, rfl⟩ := hx
    obtain ⟨_, _, rfl⟩ := hy
    exact hab

theorem Encode_eq_pairs (v : Values) :
    v.Encode = "&".intercalate (v.pairs.map encodePair) := by
  simp only [Values.Encode, Values.pairs, List.map_flatMap, List.map_map, encodeKey]
  rfl

theorem keys_eq_nil_iff_len (v : Values) : v.keys = [] ↔ ¬ v.len > 0 := by
  cases v with
  | mk es => cases es <;> simp [Values.keys, Values.len]

theorem keys_subset_vocabulary (params : Params) (v : Variant) (key : String)
    (hv : params.variant = some v) (h : key ∈ (buildParams params).keys) :
    key ∈ vocabulary v := by
  have hH : (buildParams params).Has key = true := by simpa [Values.Has] using h
  cases params with
  | other => simp [Params.variant] at hv
  | markets p =>
    simp only [Params.variant, Option.some.injEq] at hv
    subst hv
    cases p with
    | none => simp [buildParams] at hH
    | some p =>
      simp only [buildParams, buildMarketsParams, Has_AddIf, Has_AddPtr, Has_AddEach, Has_empty,
        Bool.or_eq_true, Bool.and_eq_true, decide_eq_true_eq, Bool.or_false] at hH
      simp only [vocabulary, List.mem_cons, List.mem_singleton, List.not_mem_nil, or_false]
      tauto
  | events p =>
    simp only [Params.variant, Option.some.injEq] at hv
    subst hv
    cases p with
    | none => simp [buildParams] at hH
    | some p =>
      simp only [buildParams, buildEventsParams, Has_AddIf, Has_AddPtr, Has_AddEach, Has_empty,
        Bool.or_eq_true, Bool.and_eq_true, decide_eq_true_eq, Bool.or_false] at hH
      simp only [vocabulary, List.mem_cons, List.mem_singleton, List.not_mem_nil, or_false]
      tauto
  | getEvent p =>
    simp only [Params.variant, Option.some.injEq] at hv
    subst hv
    cases p with
    | none => simp [buildParams] at hH
    | some p =>
      simp only [buildParams, buildGetEventParams, Has_AddIf, Has_AddPtr, Has_AddEach,
        Has_empty, Bool.or_eq_true, Bool.and_eq_true, decide_eq_true_eq, Bool.or_false] at hH
      simp only [vocabulary, List.mem_cons, List.mem_singleton, List.not_mem_nil, or_false]
      tauto
  | getMarket p =>
    simp only [Params.variant, Option.some.injEq] at hv
    subst hv
    cases p with
    | none => simp [buildParams] at hH
    | some p =>
      simp only [buildParams, buildGetMarketParams, Has_AddIf, Has_AddPtr, Has_AddEach,
        Has_empty, Bool.or_eq_true, Bool.and_eq_true, decide_eq_true_eq, Bool.or_false] at hH
      simp only [vocabulary, List.mem_cons, List.mem_singleton, List.not_mem_nil, or_false]
      tauto
  | comments p =>
    simp only [Params.variant, Option.some.injEq] at hv
    subst hv
    cases p with
    | none => simp [buildParams] at hH
    | some p =>
      simp only [buildParams, buildCommentsParams, Has_AddIf, Has_AddPtr, Has_AddEach,
        Has_empty, Bool.or_eq_true, Bool.and_eq_true, decide_eq_true_eq, Bool.or_false] at hH
      simp only [vocabulary, List.mem_cons, List.mem_singleton, List.not_mem_nil, or_false]
      tauto
  | search p =>
    simp only [Params.variant, Option.some.injEq] at hv
    subst hv
    cases p with
    | none => simp [buildParams] at hH
    | some p =>
      simp only [buildParams, buildSearchParams, Has_AddIf, Has_AddPtr, Has_AddEach, Has_empty,
        Bool.or_eq_true, Bool.and_eq_true, decide_eq_true_eq, Bool.or_false] at hH
      simp only [vocabulary, List.mem_cons, List.mem_singleton, List.not_mem_nil, or_false]
      tauto

theorem vocabulary_subset_keys_full (v : Variant) :
    ∀ key ∈ vocabulary v, key ∈ (buildParams (fullParams v)).keys := by
  cases v <;> decide

theorem calls_SearchByTag (env : Env) (c : Client) (query : String) (tags : List String)
    (p : Option SearchParams) :
    (c.SearchByTag env query tags p).calls =
      (c.Search env (some (withTags p query tags))).calls := by
  cases p <;> simp only [Client.SearchByTag, withTags, Option.getD] <;> split <;> rfl

theorem Search_empty_query (env : Env) (c : Client) (p : SearchParams) (hQ : p.Q = "") :
    c.Search env (some p) = ⟨.error (.errorString "search query (Q) is required"), []⟩ := by
  simp [Client.Search, hQ, Errorf]

theorem calls_GetMarketWithParams (env : Env) (c : Client) (id : String)
    (params : Option GetMarketParams) :
    (c.GetMarketWithParams env id params).calls =
      [{ baseURL := c.baseURL, method := "GET", endpoint := "/markets/" ++ id,
         params := buildParams (.getMarket params) }] := by
  simp only [Client.GetMarketWithParams]
  split
  · rfl
  · split <;> rfl

theorem calls_GetEventWithParams (env : Env) (c : Client) (id : String)
    (params : Option GetEventParams) :
    (c.GetEventWithParams env id params).calls =
      [{ baseURL := c.baseURL, method := "GET", endpoint := "/events/" ++ id,
         params := buildParams (.getEvent params) }] := by
  simp only [Client.GetEventWithParams]
  split
  · rfl
  · split <;> rfl

theorem fullURL_cases (base endpoint : String) (params : Values) :
    fullURL base endpoint params =
      if params.keys = [] then base ++ endpoint
      else base ++ endpoint ++ "?" ++ params.Encode := by
  by_cases hk : params.keys = []
  · have hlen := (keys_eq_nil_iff_len params).mp hk
    simp only [fullURL, if_neg hlen, if_pos hk]
  · have hlen : params.len > 0 := by
      by_contra hn
      exact hk ((keys_eq_nil_iff_len params).mpr hn)
    simp only [fullURL, if_pos hlen, if_neg hk, String.append_assoc]

theorem lookup_q_withFlags (p : Option SearchParams) (query : String) (tags profiles : Bool)
    (hq : query ≠ "") :
    (buildParams (.search (some (withFlags p query tags profiles)))).lookup "q" = [query] := by
  simp [buildParams, buildSearchParams, withFlags, hq]

theorem lookup_q_withTags (p : Option SearchParams) (query : String) (tags : List String)
    (hq : query ≠ "") :
    (buildParams (.search (some (withTags p query tags)))).lookup "q" = [query] := by
  simp [buildParams, buildSearchParams, withTags, hq]

theorem SearchEvents_empty_query (env : Env) (c : Client) (p : Option SearchParams) :
    c.SearchEvents env "" p = ⟨.error (.errorString "search query (Q) is required"), []⟩ := by
  cases p <;> simp [Client.SearchEvents, Client.Search, Errorf]

theorem SearchProfiles_empty_query (env : Env) (c : Client) (p : Option SearchParams) :
    c.SearchProfiles env "" p =
      ⟨.error (.errorString "search query (Q) is required"), []⟩ := by
  cases p <;> simp [Client.SearchProfiles, Client.Search, Errorf]

theorem SearchTags_empty_query (env : Env) (c : Client) (p : Option SearchParams) :
    c.SearchTags env "" p = ⟨.error (.errorString "search query (Q) is required"), []⟩ := by
  cases p <;> simp [Client.SearchTags, Client.Search, Errorf]

theorem SearchByTag_empty_query (env : Env) (c : Client) (tags : List String)
    (p : Option SearchParams) :
    c.SearchByTag env "" tags p =
      ⟨.error (.errorString "search query (Q) is required"), []⟩ := by
  cases p <;> simp [Client.SearchByTag, Client.Search, Errorf]

theorem result_makeRequest_rejected (env : Env) (c : Client) (method endpoint : String)
    (params : Values) (err : String)
    (h : env.NewRequest method (fullURL c.baseURL endpoint params) = some err) :
    (c.makeRequest env method endpoint params).result =
      .error (Errorfw "failed to create request: " (.external err)) := by
  simp [Client.makeRequest, h]

theorem result_makeRequest_transport (env : Env) (c : Client) (method endpoint : String)
    (params : Values) (err : String)
    (hNew : env.NewRequest method (fullURL c.baseURL endpoint params) = none)
    (hDo : env.Do c.Timeout (newRequest method (fullURL c.baseURL endpoint params)) =
      .error err) :
    (c.makeRequest env method endpoint params).result =
      .error (Errorfw "failed to make request: " (.external err)) := by
  simp [Client.makeRequest, hNew, hDo]

theorem requests_of_calls {α : Type} (r : Run α) (env : Env) (call : Call)
    (h : r.calls = [call]) : r.requests env = call.requests env := by
  simp [Run.requests, h]

theorem requests_accepted (call : Call) (env : Env)
    (h : env.NewRequest call.method (fullURL call.baseURL call.endpoint call.params) = none) :
    call.requests env =
      [newRequest call.method (fullURL call.baseURL call.endpoint call.params)] := by
  simp [Call.requests, h]

theorem requests_rejected (call : Call) (env : Env) (err : String)
    (h : env.NewRequest call.method (fullURL call.baseURL call.endpoint call.params) =
      some err) :
    call.requests env = [] := by
  simp [Call.requests, h]

theorem result_GetMarketWithParams_of_error (env : Env) (c : Client) (id : String)
    (mp : Option GetMarketParams) (err : Error)
    (h : (c.makeRequest env "GET" ("/markets/" ++ id) (buildParams (.getMarket mp))).result =
      .error err) :
    (c.GetMarketWithParams env id mp).result =
      .error (Errorfw ("failed to fetch market " ++ id ++ ": ") err) := by
  simp [Client.GetMarketWithParams, h]

theorem result_GetEventWithParams_of_error (env : Env) (c : Client) (id : String)
    (ep : Option GetEventParams) (err : Error)
    (h : (c.makeRequest env "GET" ("/events/" ++ id) (buildParams (.getEvent ep))).result =
      .error err) :
    (c.GetEventWithParams env id ep).result =
      .error (Errorfw ("failed to fetch event " ++ id ++ ": ") err) := by
  simp [Client.GetEventWithParams, h]

/-! ## The option encoder: omission and multi-valued fields -/

/-- C1: for every options value handed to `buildParams` (a pointer, nil or not, to
`MarketsParams`, `EventsParams`, `GetEventParams`, `GetMarketParams`, `CommentsParams` or
`SearchParams`) and every field of it that is unset (nil pointer, empty string, empty
sequence, zero integer, false plain boolean), the key of that field is not a key of the
encoded query, and no value is stored under it. -/
theorem C1_unset_field_contributes_no_pair (params : Params) (key : String)
    (h : (key, true) ∈ params.fields) :
    key ∉ (buildParams params).keys ∧ (buildParams params).lookup key = [] := by
  have hHas := Has_false_of_unset params key h
  refine ⟨?_, lookup_of_Has_false _ _ hHas⟩
  simpa [Values.Has] using hHas

/-- Witness of C1: markets options with only `Limit` and `Order` set leave `slug` unset, and
`slug` is no key of the query. -/
theorem C1_unset_field_contributes_no_pair_witness :
    ("slug", true) ∈ (Params.markets (some { Limit := 5, Order := "id" })).fields ∧
      "slug" ∉ (buildParams (.markets (some { Limit := 5, Order := "id" }))).keys ∧
      (buildParams (.markets (some { Limit := 5, Order := "id" }))).lookup "slug" = [] :=
  ⟨by decide, C1_unset_field_contributes_no_pair _ _ (by decide)⟩

/-- C2: for each multi-valued options field (`EventsParams.ID`, `EventsParams.Slug`,
`EventsParams.ExcludeTagID`, `SearchParams.EventsTag`, `SearchParams.ExcludeTagID`) the values
that `buildParams` stores under the key of the field are exactly the elements of the
sequence (integers in decimal), as many and in the same order; so no other field of the
options adds a value under that key. -/
theorem C2_multi_valued_field_in_order (e : EventsParams) (q : SearchParams) :
    (buildParams (.events (some e))).lookup "id" = e.ID ∧
    (buildParams (.events (some e))).lookup "slug" = e.Slug ∧
    (buildParams (.events (some e))).lookup "exclude_tag_id" = e.ExcludeTagID.map Itoa ∧
    (buildParams (.search (some q))).lookup "events_tag" = q.EventsTag ∧
    (buildParams (.search (some q))).lookup "exclude_tag_id" = q.ExcludeTagID.map Itoa := by
  refine ⟨?_, ?_, ?_, ?_, ?_⟩ <;> simp [buildParams, buildEventsParams, buildSearchParams]

/-! ## The response mediator -/

/-- C3, as the code has it: for every response with a status code other than 200 whose body
does not decode as an `APIError`, `makeRequest` returns a plain error made by `fmt.Errorf`,
not a `*APIError`; its text is `API returned status <code>: <body>`, with the status code
in decimal and the raw body. -/
theorem C3_undecodable_body_gives_plain_error (env : Env) (c : Client)
    (method endpoint : String) (params : Values) (resp : Response) (body msg : String)
    (hNew : env.NewRequest method (fullURL c.baseURL endpoint params) = none)
    (hDo : env.Do c.Timeout (newRequest method (fullURL c.baseURL endpoint params)) = .ok resp)
    (hBody : resp.Body = .ok body)
    (hStatus : resp.StatusCode ≠ StatusOK)
    (hDecode : env.UnmarshalAPIError body = .error msg) :
    (c.makeRequest env method endpoint params).result =
        .error (.errorString ("API returned status " ++ Itoa resp.StatusCode ++ ": " ++ body)) ∧
      (¬ ∃ e : APIError, (c.makeRequest env method endpoint params).result =
        .error (.apiError e)) := by
  have hres : (c.makeRequest env method endpoint params).result =
      .error (.errorString ("API returned status " ++ Itoa resp.StatusCode ++ ": " ++ body)) := by
    simp [Client.makeRequest, hNew, hDo, hBody, hStatus, hDecode, Errorf]
  refine ⟨hres, ?_⟩
  rintro ⟨e, he⟩
  rw [hres] at he
  cases he

/-- Witness of C3 as the code has it: status 404 with an HTML body. -/
theorem C3_undecodable_body_gives_plain_error_witness :
    (NewClient.makeRequest envNotFoundHTML "GET" "/markets" Values.empty).result =
        .error (.errorString ("API returned status " ++ Itoa 404 ++ ": " ++
          "<html>Not Found</html>")) ∧
      (¬ ∃ e : APIError, (NewClient.makeRequest envNotFoundHTML "GET" "/markets"
        Values.empty).result = .error (.apiError e)) :=
  C3_undecodable_body_gives_plain_error envNotFoundHTML NewClient "GET" "/markets" Values.empty
    { StatusCode := 404, Body := .ok "<html>Not Found</html>" } "<html>Not Found</html>"
    "invalid character '<' looking for beginning of value" rfl rfl rfl (by decide) rfl

/-- Counterexample to C3 as stated: for status 404 and a body that is not JSON the error
`makeRequest` returns is the plain error `API returned status 404: <html>Not Found</html>`;
there is no `APIError` with code 404 that it returns. -/
theorem C3_counterexample_no_APIError :
    (NewClient.makeRequest envNotFoundHTML "GET" "/markets" Values.empty).result =
        .error (.errorString "API returned status 404: <html>Not Found</html>") ∧
      ¬ ∃ e : APIError, e.Code = 404 ∧
        (NewClient.makeRequest envNotFoundHTML "GET" "/markets" Values.empty).result =
          .error (.apiError e) := by
  have hres : (NewClient.makeRequest envNotFoundHTML "GET" "/markets" Values.empty).result =
      .error (.errorString "API returned status 404: <html>Not Found</html>") := rfl
  refine ⟨hres, ?_⟩
  rintro ⟨e, _, he⟩
  rw [hres] at he
  cases he

/-- C4: for every response with a status code `s` other than 200 whose body decodes as an
`APIError` with code `code` and message `m`, `makeRequest` returns the `APIError` with code
`s`, whatever `code` is, and message `m`; its `Error()` text is `m`. -/
theorem C4_decoded_error_carries_status (env : Env) (c : Client)
    (method endpoint : String) (params : Values) (resp : Response) (body : String)
    (code : Int) (m : String)
    (hNew : env.NewRequest method (fullURL c.baseURL endpoint params) = none)
    (hDo : env.Do c.Timeout (newRequest method (fullURL c.baseURL endpoint params)) = .ok resp)
    (hBody : resp.Body = .ok body)
    (hStatus : resp.StatusCode ≠ StatusOK)
    (hDecode : env.UnmarshalAPIError body = .ok { Code := code, Message := m }) :
    (c.makeRequest env method endpoint params).result =
        .error (.apiError { Code := resp.StatusCode, Message := m }) ∧
      (Error.apiError { Code := resp.StatusCode, Message := m }).Error = m := by
  refine ⟨?_, rfl⟩
  simp [Client.makeRequest, hNew, hDo, hBody, hStatus, hDecode]

/-- Witness of C4: status 404 with a body that decodes to code 7. -/
theorem C4_decoded_error_carries_status_witness :
    (NewClient.makeRequest envNotFoundJSON "GET" "/markets/12" Values.empty).result =
        .error (.apiError { Code := 404, Message := "market not found" }) ∧
      (Error.apiError { Code := 404, Message := "market not found" }).Error =
        "market not found" :=
  C4_decoded_error_carries_status envNotFoundJSON NewClient "GET" "/markets/12" Values.empty
    { StatusCode := 404, Body := .ok notFoundBody }
    notFoundBody 7 "market not found"
    rfl rfl rfl (by decide) rfl

/-- C5: when the request is made and the body is read, `makeRequest` returns the body
unchanged and no error if and only if the status code is exactly 200; for every other status
code, 201 and 204 included, it returns an error and no body. -/
theorem C5_body_passes_iff_status_200 (env : Env) (c : Client)
    (method endpoint : String) (params : Values) (resp : Response) (body : String)
    (hNew : env.NewRequest method (fullURL c.baseURL endpoint params) = none)
    (hDo : env.Do c.Timeout (newRequest method (fullURL c.baseURL endpoint params)) = .ok resp)
    (hBody : resp.Body = .ok body) :
    ((c.makeRequest env method endpoint params).result = .ok body ↔
        resp.StatusCode = StatusOK) ∧
      (resp.StatusCode ≠ StatusOK →
        ∃ err, (c.makeRequest env method endpoint params).result = .error err) := by
  by_cases hs : resp.StatusCode = StatusOK
  · simp [Client.makeRequest, hNew, hDo, hBody, hs]
  · cases hd : env.UnmarshalAPIError body <;>
      simp [Client.makeRequest, hNew, hDo, hBody, hs, hd]

/-- Witness of C5: status 201 gives an error and no body. -/
theorem C5_body_passes_iff_status_200_witness :
    (((NewClient.makeRequest (envEmptyList 201) "GET" "/markets" Values.empty).result =
        .ok "[]" ↔ (201 : Int) = StatusOK) ∧
      ((201 : Int) ≠ StatusOK →
        ∃ err, (NewClient.makeRequest (envEmptyList 201) "GET" "/markets"
          Values.empty).result = .error err)) :=
  C5_body_passes_iff_status_200 (envEmptyList 201) NewClient "GET" "/markets" Values.empty
    { StatusCode := 201, Body := .ok "[]" } "[]" rfl rfl rfl

/-! ## Local validation -/

/-- C7: `GetLiveVolume(id)` fails with its local validation error and dispatches no request
if and only if `id < 1`; `GetLiveVolumeMultiple(ids)` fails with one of its two local
validation errors and dispatches no request if and only if `ids` is empty or holds an element
below 1, wherever in the list that element is. -/
theorem C7_volume_identifiers_validated (env : Env) (c : Client) :
    (∀ id : Int,
      ((c.GetLiveVolume env id).result =
          .error (.errorString ("event ID must be >= 1, got " ++ Itoa id)) ∧
        (c.GetLiveVolume env id).calls = []) ↔ id < 1) ∧
    (∀ ids : List Int,
      ((c.GetLiveVolumeMultiple env ids).calls = [] ∧
        ((c.GetLiveVolumeMultiple env ids).result =
            .error (.errorString "at least one event ID is required") ∨
          ∃ id ∈ ids, id < 1 ∧ (c.GetLiveVolumeMultiple env ids).result =
            .error (.errorString ("all event IDs must be >= 1, got " ++ Itoa id)))) ↔
      (ids = [] ∨ ∃ id ∈ ids, id < 1)) := by
  constructor
  · intro id
    constructor
    · rintro ⟨_, hcalls⟩
      by_contra h
      rw [calls_GetLiveVolume env c id h] at hcalls
      cases hcalls
    · intro h
      simp [Client.GetLiveVolume, h, Errorf]
  · intro ids
    constructor
    · rintro ⟨hcalls, _⟩
      by_contra h
      push_neg at h
      obtain ⟨hne, hpos⟩ := h
      rw [calls_GetLiveVolumeMultiple env c ids hne hpos] at hcalls
      cases hcalls
    · intro h
      by_cases hne : ids = []
      · subst hne
        exact ⟨rfl, Or.inl rfl⟩
      · have hbad : ∃ id ∈ ids, id < 1 := h.resolve_left hne
        have hlen : ¬ ids.length = 0 := by simpa using hne
        obtain ⟨id, hid, hlt, he⟩ := liveVolumeParams_error ids Values.empty hbad
        refine ⟨?_, Or.inr ⟨id, hid, hlt, ?_⟩⟩
        · simp only [Client.GetLiveVolumeMultiple, if_neg hlen, he]
        · simp only [Client.GetLiveVolumeMultiple, if_neg hlen, he, Errorf]

/-- Witness of C7: the identifier 0 is rejected with no request, and so is the list
3, 0, 5, whose second element is below 1. -/
theorem C7_volume_identifiers_validated_witness :
    ((NewClient.GetLiveVolume (envEmptyList 200) 0).result =
        .error (.errorString "event ID must be >= 1, got 0") ∧
      (NewClient.GetLiveVolume (envEmptyList 200) 0).calls = []) ∧
    ((NewClient.GetLiveVolumeMultiple (envEmptyList 200) [3, 0, 5]).calls = [] ∧
      ((NewClient.GetLiveVolumeMultiple (envEmptyList 200) [3, 0, 5]).result =
          .error (.errorString "at least one event ID is required") ∨
        ∃ id ∈ ([3, 0, 5] : List Int), id < 1 ∧
          (NewClient.GetLiveVolumeMultiple (envEmptyList 200) [3, 0, 5]).result =
            .error (.errorString ("all event IDs must be >= 1, got " ++ Itoa id)))) :=
  ⟨((C7_volume_identifiers_validated (envEmptyList 200) NewClient).1 0).2 (by decide),
    ((C7_volume_identifiers_validated (envEmptyList 200) NewClient).2 [3, 0, 5]).2
      (Or.inr ⟨0, by decide, by decide⟩)⟩

/-! ## Lookup by slug -/

/-- C8: for every slug `s`, when the markets list that `GetMarketBySlug(s)` fetches decodes
to the empty sequence, `GetMarketBySlug(s)` returns the error `market with slug <s> not
found`, whose text contains `s`; when it decodes to a non-empty sequence, it returns the
first element of that sequence, unchanged, and no error. -/
theorem C8_market_by_slug_first_or_not_found (env : Env) (c : Client) (s : String)
    (markets : List Market)
    (hList : (c.GetMarkets env (some { Slug := s, Limit := 1 })).result = .ok markets) :
    (markets = [] →
      (c.GetMarketBySlug env s).result =
          .error (.errorString ("market with slug " ++ s ++ " not found")) ∧
        (Error.errorString ("market with slug " ++ s ++ " not found")).Error =
          "market with slug " ++ s ++ " not found") ∧
    (∀ m rest, markets = m :: rest → (c.GetMarketBySlug env s).result = .ok m) := by
  constructor
  · rintro rfl
    refine ⟨?_, rfl⟩
    simp [Client.GetMarketBySlug, hList, Errorf]
  · rintro m rest rfl
    simp [Client.GetMarketBySlug, hList]

/-- Witness of C8: for the slug `foo`, zero markets give the error that names `foo`, and one
market is returned as decoded. -/
theorem C8_market_by_slug_first_or_not_found_witness :
    ((NewClient.GetMarkets (envEmptyList 200) (some { Slug := "foo", Limit := 1 })).result =
        .ok [] ∧
      (NewClient.GetMarketBySlug (envEmptyList 200) "foo").result =
        .error (.errorString "market with slug foo not found")) ∧
    ((NewClient.GetMarkets (envOneMarket (sampleMarket "1" "Will it rain?" "foo"))
        (some { Slug := "foo", Limit := 1 })).result =
        .ok [sampleMarket "1" "Will it rain?" "foo"] ∧
      (NewClient.GetMarketBySlug (envOneMarket (sampleMarket "1" "Will it rain?" "foo"))
        "foo").result = .ok (sampleMarket "1" "Will it rain?" "foo")) :=
  ⟨⟨rfl, ((C8_market_by_slug_first_or_not_found (envEmptyList 200) NewClient "foo" []
      rfl).1 rfl).1⟩,
    ⟨rfl, (C8_market_by_slug_first_or_not_found
      (envOneMarket (sampleMarket "1" "Will it rain?" "foo")) NewClient "foo"
      [sampleMarket "1" "Will it rain?" "foo"] rfl).2 _ [] rfl⟩⟩

/-- C9, as the code has it: for every non-empty slug `s` the list request dispatched by
`GetMarketBySlug(s)` has the slug filter set and an explicit limit of 1, its query being
exactly the pairs `limit=1` and `slug=s`; for the empty slug its query is the pair `limit=1`
alone, the empty slug being left out by the encoder. -/
theorem C9_slug_lookup_query (env : Env) (c : Client) (s : String) :
    (s ≠ "" →
      (c.GetMarketBySlug env s).calls =
        [{ baseURL := c.baseURL, method := "GET", endpoint := "/markets",
           params := Values.mk [("limit", ["1"]), ("slug", [s])] }]) ∧
    (c.GetMarketBySlug env "").calls =
        [{ baseURL := c.baseURL, method := "GET", endpoint := "/markets",
           params := Values.mk [("limit", ["1"])] }] := by
  refine ⟨fun hs => ?_, ?_⟩
  · rw [calls_GetMarketBySlug, buildParams_market_slug s hs]
  · rw [calls_GetMarketBySlug]
    rfl

/-- Witness of C9 as the code has it: the slug `foo`. -/
theorem C9_slug_lookup_query_witness :
    "foo" ≠ "" ∧
      (NewClient.GetMarketBySlug (envEmptyList 200) "foo").calls =
        [{ baseURL := DefaultBaseURL, method := "GET", endpoint := "/markets",
           params := Values.mk [("limit", ["1"]), ("slug", ["foo"])] }] :=
  ⟨by decide, (C9_slug_lookup_query (envEmptyList 200) NewClient "foo").1 (by decide)⟩

/-- Counterexample to C9 as stated: for the empty slug the request of `GetMarketBySlug` has
the query `limit=1` alone; `slug` is no key of it, so the pair `slug=` is not there. -/
theorem C9_counterexample_empty_slug :
    (NewClient.GetMarketBySlug (envEmptyList 200) "").calls =
        [{ baseURL := DefaultBaseURL, method := "GET", endpoint := "/markets",
           params := Values.mk [("limit", ["1"])] }] ∧
      (Values.mk [("limit", ["1"])]).Has "slug" = false ∧
      (Values.mk [("limit", ["1"])]).lookup "slug" ≠ [""] := by
  refine ⟨rfl, by decide, by decide⟩

/-! ## Live volume for several events -/

/-- C10: for every non-empty list `ids` of positive integers, `GetLiveVolumeMultiple(ids)`
dispatches one request, to `/live-volume` at the data API base address, whose query has the
single key `id`, holding the decimal text of each identifier, as many values as identifiers
and in input order. -/
theorem C10_live_volume_multiple_query (env : Env) (c : Client) (ids : List Int)
    (hne : ids ≠ []) (hpos : ∀ id ∈ ids, 1 ≤ id) :
    ∃ call : Call, (c.GetLiveVolumeMultiple env ids).calls = [call] ∧
      call.baseURL = env.DataAPIBaseURL ∧ call.method = "GET" ∧
      call.endpoint = "/live-volume" ∧
      call.params.keys = ["id"] ∧
      call.params.lookup "id" = ids.map Itoa ∧
      (call.params.lookup "id").length = ids.length :=
  ⟨_, calls_GetLiveVolumeMultiple env c ids hne hpos, rfl, rfl, rfl, rfl,
    by simp [Values.lookup], by simp [Values.lookup]⟩

/-- Witness of C10: the identifiers 1, 2, 3 give the values `1`, `2`, `3` under `id`. -/
theorem C10_live_volume_multiple_query_witness :
    ([1, 2, 3] : List Int) ≠ [] ∧ (∀ id ∈ ([1, 2, 3] : List Int), 1 ≤ id) ∧
      ∃ call : Call, (NewClient.GetLiveVolumeMultiple (envEmptyList 200) [1, 2, 3]).calls =
          [call] ∧
        call.baseURL = (envEmptyList 200).DataAPIBaseURL ∧ call.method = "GET" ∧
        call.endpoint = "/live-volume" ∧
        call.params.keys = ["id"] ∧
        call.params.lookup "id" = ["1", "2", "3"] ∧
        (call.params.lookup "id").length = 3 :=
  ⟨by decide, by decide,
    C10_live_volume_multiple_query (envEmptyList 200) NewClient [1, 2, 3] (by decide)
      (by decide)⟩

/-- C11, as the code has it: for every non-empty list of positive identifiers and every
response with status 200 whose body decodes to an array of live volumes,
`GetLiveVolumeMultiple` returns that array unchanged and no error, whatever its length; so
an empty array gives the empty sequence and no error. -/
theorem C11_live_volume_multiple_returns_decoded (env : Env) (c : Client) (ids : List Int)
    (resp : Response) (body : String) (vs : List LiveVolume)
    (hne : ids ≠ []) (hpos : ∀ id ∈ ids, 1 ≤ id)
    (hNew : env.NewRequest "GET"
      (fullURL env.DataAPIBaseURL "/live-volume" (Values.mk [("id", ids.map Itoa)])) = none)
    (hDo : env.Do c.Timeout (newRequest "GET"
      (fullURL env.DataAPIBaseURL "/live-volume" (Values.mk [("id", ids.map Itoa)]))) =
        .ok resp)
    (hBody : resp.Body = .ok body) (hStatus : resp.StatusCode = StatusOK)
    (hDecode : env.UnmarshalLiveVolumes body = .ok vs) :
    (c.GetLiveVolumeMultiple env ids).result = .ok vs ∧
      (vs = [] → (c.GetLiveVolumeMultiple env ids).result = .ok []) := by
  have hlen : ¬ ids.length = 0 := by simpa using hne
  have hreq := result_makeRequestWithBaseURL_ok env c env.DataAPIBaseURL "GET" "/live-volume"
    (Values.mk [("id", ids.map Itoa)]) resp body hNew hDo hBody hStatus
  have hres : (c.GetLiveVolumeMultiple env ids).result = .ok vs := by
    simp only [Client.GetLiveVolumeMultiple, if_neg hlen, liveVolumeParams_first ids hne hpos,
      hreq, hDecode]
  exact ⟨hres, fun h => h ▸ hres⟩

/-- Witness of C11 as the code has it: for the identifiers 1, 2, 3 an empty array gives the
empty sequence and no error. -/
theorem C11_live_volume_multiple_returns_decoded_witness :
    (NewClient.GetLiveVolumeMultiple (envVolumes []) [1, 2, 3]).result = .ok [] ∧
      (([] : List LiveVolume) = [] →
        (NewClient.GetLiveVolumeMultiple (envVolumes []) [1, 2, 3]).result = .ok []) :=
  C11_live_volume_multiple_returns_decoded (envVolumes []) NewClient [1, 2, 3]
    { StatusCode := 200, Body := .ok "[...]" } "[...]" [] (by decide) (by decide)
    rfl rfl rfl rfl rfl

/-- Counterexample to C11 as stated: for the one identifier 7 and a response that decodes to
two live volumes, `GetLiveVolumeMultiple` returns both, more entries than identifiers. -/
theorem C11_counterexample_more_entries_than_ids :
    ∃ vs : List LiveVolume,
      (NewClient.GetLiveVolumeMultiple (envVolumes [sampleVolume 10, sampleVolume 20])
        [7]).result = .ok vs ∧
      ¬ vs.length ≤ ([7] : List Int).length :=
  ⟨[sampleVolume 10, sampleVolume 20], rfl, by decide⟩

/-- C12: for every `id >= 1` and every response with status 200 whose body decodes to an
array `v` of live volumes: if `v` is not empty, `GetLiveVolume(id)` returns its first
element as decoded, `GetEventTotalVolume(id)` the `Total` of that element and
`GetEventMarketVolumes(id)` its `Markets`; if `v` is empty, all three return the error
`no volume data found for event <id>`. -/
theorem C12_live_volume_first_element (env : Env) (c : Client) (id : Int)
    (resp : Response) (body : String) (v : List LiveVolume) (hid : 1 ≤ id)
    (hNew : env.NewRequest "GET"
      (fullURL env.DataAPIBaseURL "/live-volume" (Values.mk [("id", [Itoa id])])) = none)
    (hDo : env.Do c.Timeout (newRequest "GET"
      (fullURL env.DataAPIBaseURL "/live-volume" (Values.mk [("id", [Itoa id])]))) = .ok resp)
    (hBody : resp.Body = .ok body) (hStatus : resp.StatusCode = StatusOK)
    (hDecode : env.UnmarshalLiveVolumes body = .ok v) :
    (∀ v0 rest, v = v0 :: rest →
      (c.GetLiveVolume env id).result = .ok v0 ∧
      (c.GetEventTotalVolume env id).result = .ok v0.Total ∧
      (c.GetEventMarketVolumes env id).result = .ok v0.Markets) ∧
    (v = [] →
      (c.GetLiveVolume env id).result =
        .error (.errorString ("no volume data found for event " ++ Itoa id)) ∧
      (c.GetEventTotalVolume env id).result =
        .error (.errorString ("no volume data found for event " ++ Itoa id)) ∧
      (c.GetEventMarketVolumes env id).result =
        .error (.errorString ("no volume data found for event " ++ Itoa id))) := by
  have h := result_GetLiveVolume_ok env c id resp body v hid hNew hDo hBody hStatus hDecode
  constructor
  · rintro v0 rest rfl
    simp only at h
    simp [Client.GetEventTotalVolume, Client.GetEventMarketVolumes, h]
  · rintro rfl
    simp only at h
    simp [Client.GetEventTotalVolume, Client.GetEventMarketVolumes, h]

/-- Witness of C12: for the event 123 a one-element array is returned as decoded, with its
total and its markets. -/
theorem C12_live_volume_first_element_witness :
    (NewClient.GetLiveVolume (envVolumes [sampleVolume 1500]) 123).result =
        .ok (sampleVolume 1500) ∧
      (NewClient.GetEventTotalVolume (envVolumes [sampleVolume 1500]) 123).result =
        .ok (sampleVolume 1500).Total ∧
      (NewClient.GetEventMarketVolumes (envVolumes [sampleVolume 1500]) 123).result =
        .ok (sampleVolume 1500).Markets :=
  (C12_live_volume_first_element (envVolumes [sampleVolume 1500]) NewClient 123
    { StatusCode := 200, Body := .ok "[...]" } "[...]" [sampleVolume 1500] (by decide)
    rfl rfl rfl rfl rfl).1 _ [] rfl

/-! ## Entity-scoped comments and the search wrappers -/

/-- C13: for every identifier `id`, of any sign, and every comments options pointer `p`, nil
included, `GetMarketComments`, `GetEventComments` and `GetSeriesComments` are `GetComments`
on the options equal to `p` except that `ParentEntityType` is `market`, `Event` or `Series`
and `ParentEntityID` is `id`; the one request dispatched goes to `/comments` with the query
of those options, in which `parent_entity_type` holds the literal alone,
`parent_entity_id` holds `id` in decimal alone, and every other key holds what the query
of `p` alone holds. -/
theorem C13_entity_comments_set_parent (env : Env) (c : Client) (id : Int)
    (p : Option CommentsParams) :
    (c.GetMarketComments env id p = c.GetComments env (some (withParent p "market" id)) ∧
      c.GetEventComments env id p = c.GetComments env (some (withParent p "Event" id)) ∧
      c.GetSeriesComments env id p = c.GetComments env (some (withParent p "Series" id))) ∧
    (∀ lit ∈ ["market", "Event", "Series"],
      (c.GetComments env (some (withParent p lit id))).calls =
        [{ baseURL := c.baseURL, method := "GET", endpoint := "/comments",
           params := buildParams (.comments (some (withParent p lit id))) }] ∧
      (buildParams (.comments (some (withParent p lit id)))).lookup "parent_entity_type" =
        [lit] ∧
      (buildParams (.comments (some (withParent p lit id)))).lookup "parent_entity_id" =
        [Itoa id] ∧
      ∀ key, key ≠ "parent_entity_type" → key ≠ "parent_entity_id" →
        (buildParams (.comments (some (withParent p lit id)))).lookup key =
          (buildParams (.comments p)).lookup key) := by
  constructor
  · cases p <;> exact ⟨rfl, rfl, rfl⟩
  · intro lit hlit
    have hne : lit ≠ "" := by
      rintro rfl
      simp at hlit
    refine ⟨calls_GetComments _ _ _, ?_, ?_, ?_⟩
    · simp [buildParams, buildCommentsParams, withParent, hne]
    · simp [buildParams, buildCommentsParams, withParent]
    · intro key h1 h2
      cases p <;> simp [buildParams, buildCommentsParams, withParent, h1, h2]

/-- Witness of C13: the comments of market 42 with a limit of 5 and a parent given by the
caller. -/
theorem C13_entity_comments_set_parent_witness :
    (NewClient.GetComments (envEmptyList 200)
        (some (withParent
          (some { Limit := 5, ParentEntityType := "Series", ParentEntityID := some 1 })
          "market" 42))).calls =
      [{ baseURL := DefaultBaseURL, method := "GET", endpoint := "/comments",
         params := Values.mk [("limit", ["5"]), ("parent_entity_type", ["market"]),
           ("parent_entity_id", ["42"])] }] :=
  ((C13_entity_comments_set_parent (envEmptyList 200) NewClient 42
    (some { Limit := 5, ParentEntityType := "Series", ParentEntityID := some 1 })).2
    "market" (by decide)).1

/-- C14: for every query text and every search options pointer, each request dispatched by
`SearchEvents`, `SearchProfiles` and `SearchTags` carries `search_tags` and
`search_profiles` once each, with the values false and false, false and true, true and
false, whatever the caller had set; so the two are never both `true`. For a non-empty query
text each of the three dispatches exactly one request. -/
theorem C14_search_wrappers_force_flags (env : Env) (c : Client) (query : String)
    (p : Option SearchParams) :
    (∀ call ∈ (c.SearchEvents env query p).calls,
      call.params.lookup "search_tags" = ["false"] ∧
      call.params.lookup "search_profiles" = ["false"]) ∧
    (∀ call ∈ (c.SearchProfiles env query p).calls,
      call.params.lookup "search_tags" = ["false"] ∧
      call.params.lookup "search_profiles" = ["true"]) ∧
    (∀ call ∈ (c.SearchTags env query p).calls,
      call.params.lookup "search_tags" = ["true"] ∧
      call.params.lookup "search_profiles" = ["false"]) ∧
    (∀ call ∈ (c.SearchEvents env query p).calls ++ (c.SearchProfiles env query p).calls ++
        (c.SearchTags env query p).calls,
      ¬ (call.params.lookup "search_tags" = ["true"] ∧
        call.params.lookup "search_profiles" = ["true"])) ∧
    (query ≠ "" →
      (c.SearchEvents env query p).calls.length = 1 ∧
      (c.SearchProfiles env query p).calls.length = 1 ∧
      (c.SearchTags env query p).calls.length = 1) := by
  have hE : ∀ call ∈ (c.SearchEvents env query p).calls,
      call.params.lookup "search_tags" = ["false"] ∧
      call.params.lookup "search_profiles" = ["false"] := by
    intro call h
    rw [calls_SearchEvents] at h
    rw [(params_of_Search_call env c _ call h).1]
    exact lookup_flags p query false false
  have hP : ∀ call ∈ (c.SearchProfiles env query p).calls,
      call.params.lookup "search_tags" = ["false"] ∧
      call.params.lookup "search_profiles" = ["true"] := by
    intro call h
    rw [calls_SearchProfiles] at h
    rw [(params_of_Search_call env c _ call h).1]
    exact lookup_flags p query false true
  have hT : ∀ call ∈ (c.SearchTags env query p).calls,
      call.params.lookup "search_tags" = ["true"] ∧
      call.params.lookup "search_profiles" = ["false"] := by
    intro call h
    rw [calls_SearchTags] at h
    rw [(params_of_Search_call env c _ call h).1]
    exact lookup_flags p query true false
  refine ⟨hE, hP, hT, ?_, ?_⟩
  · intro call h
    simp only [List.mem_append] at h
    rcases h with (h | h) | h
    · rw [(hE call h).1]; simp
    · rw [(hP call h).1]; simp
    · rw [(hT call h).2]; simp
  · intro hq
    have hQ : ∀ a b, (withFlags p query a b).Q ≠ "" := fun a b => hq
    rw [calls_SearchEvents, calls_SearchProfiles, calls_SearchTags,
      calls_Search env c _ (hQ false false), calls_Search env c _ (hQ false true),
      calls_Search env c _ (hQ true false)]
    exact ⟨rfl, rfl, rfl⟩

/-- Witness of C14: a search of tags for `rain` by a caller who had asked for profiles sends
one request, with `search_tags=true` and `search_profiles=false`. -/
theorem C14_search_wrappers_force_flags_witness :
    "rain" ≠ "" ∧
      (NewClient.SearchTags (envEmptyList 200) "rain"
        (some { SearchTags := some false, SearchProfiles := some true })).calls =
        [{ baseURL := DefaultBaseURL, method := "GET", endpoint := "/public-search",
           params := Values.mk [("q", ["rain"]), ("search_tags", ["true"]),
             ("search_profiles", ["false"])] }] ∧
      (NewClient.SearchTags (envEmptyList 200) "rain"
        (some { SearchTags := some false, SearchProfiles := some true })).calls.length = 1 :=
  ⟨by decide, rfl,
    ((C14_search_wrappers_force_flags (envEmptyList 200) NewClient "rain"
      (some { SearchTags := some false, SearchProfiles := some true })).2.2.2.2
      (by decide)).2.2⟩

/-! ## Booleans and pagination in the option encoder -/

/-- C15: for every options value and every optional boolean field of it that is held as a
pointer (`active`, `closed`, `archived`, `related_tags`, `featured`, `cyom`, `include_chat`,
`include_template`, `include_tag`, `get_positions`, `holders_only`, and in the search
options `ascending`, `cache`, `search_tags`, `search_profiles`, `optimized`), when the field
is present with value `b` the query holds exactly one value under the key of the field,
`true` if `b` is true and `false` if it is false. -/
theorem C15_present_boolean_encoded_once (params : Params) (key : String) (b : Bool)
    (h : (key, some b) ∈ params.boolFields) :
    (buildParams params).lookup key = [if b then "true" else "false"] ∧
      ((buildParams params).lookup key).length = 1 := by
  have hl := lookup_of_boolField params key b h
  rw [hl]
  exact ⟨rfl, rfl⟩

/-- Witness of C15: events options with `featured` present and false. -/
theorem C15_present_boolean_encoded_once_witness :
    ("featured", some false) ∈
        (Params.events (some { Limit := 3, Featured := some false })).boolFields ∧
      (buildParams (.events (some { Limit := 3, Featured := some false }))).lookup "featured" =
        ["false"] ∧
      ((buildParams (.events (some { Limit := 3, Featured := some false }))).lookup
        "featured").length = 1 :=
  ⟨by decide,
    C15_present_boolean_encoded_once (.events (some { Limit := 3, Featured := some false }))
      "featured" false (by decide)⟩

/-- C16, as the code has it: the list options do not tell an unset pagination field from an
explicit zero. `Limit` and `Offset` of `MarketsParams`, `EventsParams` and `CommentsParams`
are plain integers; one that is 0 is left out of the query, and one with a positive value
`n` is encoded as the one pair `limit=n` or `offset=n`. -/
theorem C16_zero_pagination_omitted (m : MarketsParams) (e : EventsParams)
    (cm : CommentsParams) :
    paginationEncoded (buildParams (.markets (some m))) "limit" m.Limit ∧
    paginationEncoded (buildParams (.markets (some m))) "offset" m.Offset ∧
    paginationEncoded (buildParams (.events (some e))) "limit" e.Limit ∧
    paginationEncoded (buildParams (.events (some e))) "offset" e.Offset ∧
    paginationEncoded (buildParams (.comments (some cm))) "limit" cm.Limit ∧
    paginationEncoded (buildParams (.comments (some cm))) "offset" cm.Offset := by
  refine ⟨⟨?_, ?_⟩, ⟨?_, ?_⟩, ⟨?_, ?_⟩, ⟨?_, ?_⟩, ⟨?_, ?_⟩, ⟨?_, ?_⟩⟩ <;> intro h <;>
    simp [buildParams, buildMarketsParams, buildEventsParams, buildCommentsParams, h]

/-- Witness of C16 as the code has it: markets options with `Limit` 0 and `Offset` 20 give
the query `offset=20` with no `limit`. -/
theorem C16_zero_pagination_omitted_witness :
    ((buildParams (.markets (some { Limit := 0, Offset := 20 }))).Has "limit" = false ∧
      (buildParams (.markets (some { Limit := 0, Offset := 20 }))).lookup "limit" = []) ∧
    (buildParams (.markets (some { Limit := 0, Offset := 20 }))).lookup "offset" = ["20"] :=
  ⟨(C16_zero_pagination_omitted { Limit := 0, Offset := 20 } {} {}).1.1 rfl,
    (C16_zero_pagination_omitted { Limit := 0, Offset := 20 } {} {}).2.1.2 (by decide)⟩

/-- Counterexample to C16 as stated: markets options with `Limit` and `Offset` explicitly 0
give the empty query; neither `limit=0` nor `offset=0` is in it. -/
theorem C16_counterexample_explicit_zero :
    buildParams (.markets (some { Limit := 0, Offset := 0 })) = Values.empty ∧
      (buildParams (.markets (some { Limit := 0, Offset := 0 }))).lookup "limit" ≠ ["0"] ∧
      (buildParams (.markets (some { Limit := 0, Offset := 0 }))).lookup "offset" ≠ ["0"] := by
  decide

/-! ## The query string that is sent -/

/-- C17, as the code has it: for every options value, the query string that is sent is
written by `Encode`, which sorts the keys; its pairs appear in ascending order of the key,
as Go orders strings, not in the order of the fields, and under one key in the order the
values were added; the keys written are those of the query. Equal options values give the
identical query string. -/
theorem C17_query_written_in_key_order (params : Params) :
    (buildParams params).Encode =
        "&".intercalate ((buildParams params).pairs.map encodePair) ∧
      ((buildParams params).pairs.map Prod.fst).Pairwise keyLE ∧
      (sortKeys (buildParams params).keys).Perm (buildParams params).keys ∧
      (∀ q : Params, q = params →
        (buildParams q).Encode = (buildParams params).Encode) :=
  ⟨Encode_eq_pairs _, pairs_sorted _, sortKeys_perm _, fun _ h => by rw [h]⟩

/-- Witness of C17 as the code has it: the markets options with every field set. -/
theorem C17_query_written_in_key_order_witness :
    (buildParams (fullParams .markets)).Encode =
        "&".intercalate ((buildParams (fullParams .markets)).pairs.map encodePair) ∧
      ((buildParams (fullParams .markets)).pairs.map Prod.fst).Pairwise keyLE ∧
      (sortKeys (buildParams (fullParams .markets)).keys).Perm
        (buildParams (fullParams .markets)).keys ∧
      fullParams .markets = fullParams .markets ∧
      (buildParams (fullParams .markets)).Encode =
        (buildParams (fullParams .markets)).Encode :=
  ⟨(C17_query_written_in_key_order (fullParams .markets)).1,
    (C17_query_written_in_key_order (fullParams .markets)).2.1,
    (C17_query_written_in_key_order (fullParams .markets)).2.2.1, rfl,
    (C17_query_written_in_key_order (fullParams .markets)).2.2.2 (fullParams .markets) rfl⟩

/-- Counterexample to C17 as stated: for the markets options with every field set, the
query string starts with `active`, not with `limit`; and with `Limit` 5 and `Active` true
it is `active=true&limit=5`, not `limit=5&active=true`. -/
theorem C17_counterexample_sorted_not_declared :
    (buildParams (fullParams .markets)).Encode =
        "active=true&archived=false&ascending=true&closed=false&event_id=7&limit=10&offset=20&order=volume&slug=rain&tag_id=3" ∧
      (buildParams (.markets (some { Limit := 5, Active := some true }))).Encode =
        "active=true&limit=5" ∧
      (buildParams (.markets (some { Limit := 5, Active := some true }))).Encode ≠
        "limit=5&active=true" := by
  decide

/-- C18: for every base address, endpoint path and query, the target address `makeRequest`
builds is the base followed by the path when the query has no key, and the base, the path,
`?` and the encoded query when it has one; so it is the bare base and path if and only if
the query has no key. That address is the one the request is made to: a transport that
answers with the address it was asked for returns it. -/
theorem C18_target_address (base endpoint : String) (params : Values) :
    (params.keys = [] → fullURL base endpoint params = base ++ endpoint) ∧
    (params.keys ≠ [] →
      fullURL base endpoint params = base ++ endpoint ++ "?" ++ params.Encode) ∧
    (fullURL base endpoint params = base ++ endpoint ↔ params.keys = []) ∧
    (∀ (c : Client) (method : String), c.baseURL = base →
      (c.makeRequest envEcho method endpoint params).result =
        .ok (fullURL base endpoint params)) := by
  have h0 : params.keys = [] → fullURL base endpoint params = base ++ endpoint := by
    intro hk
    have hlen := (keys_eq_nil_iff_len params).mp hk
    simp only [fullURL, if_neg hlen]
  have h1 : params.keys ≠ [] →
      fullURL base endpoint params = base ++ endpoint ++ "?" ++ params.Encode := by
    intro hk
    have hlen : params.len > 0 := by
      by_contra hn
      exact hk ((keys_eq_nil_iff_len params).mpr hn)
    simp only [fullURL, if_pos hlen, String.append_assoc]
  refine ⟨h0, h1, ⟨?_, h0⟩, ?_⟩
  · intro heq
    by_contra hk
    rw [h1 hk] at heq
    have hl := congrArg String.length heq
    simp only [String.length_append] at hl
    have hq : ("?" : String).length = 1 := rfl
    omega
  · rintro c method rfl
    simp [Client.makeRequest, envEcho, newRequest, StatusOK]

/-- Witness of C18: the markets list with a limit of 5 is asked at
`https://gamma-api.polymarket.com/markets?limit=5`, and with no options at
`https://gamma-api.polymarket.com/markets`. -/
theorem C18_target_address_witness :
    (Values.mk [("limit", ["5"])]).keys ≠ [] ∧
      fullURL DefaultBaseURL "/markets" (Values.mk [("limit", ["5"])]) =
        "https://gamma-api.polymarket.com/markets?limit=5" ∧
      Values.empty.keys = [] ∧
      fullURL DefaultBaseURL "/markets" Values.empty =
        "https://gamma-api.polymarket.com/markets" ∧
      (NewClient.makeRequest envEcho "GET" "/markets" (Values.mk [("limit", ["5"])])).result =
        .ok "https://gamma-api.polymarket.com/markets?limit=5" :=
  ⟨by decide,
    (C18_target_address DefaultBaseURL "/markets" (Values.mk [("limit", ["5"])])).2.1
      (by decide),
    rfl, (C18_target_address DefaultBaseURL "/markets" Values.empty).1 rfl,
    (C18_target_address DefaultBaseURL "/markets" (Values.mk [("limit", ["5"])])).2.2.2
      NewClient "GET" rfl⟩

/-! ## The query vocabulary of each endpoint -/

/-- C19: for each options variant, the keys `buildParams` can produce are exactly the query
vocabulary of the endpoint in the interface table: every key of every encoded query of the
variant is in the vocabulary listed, and every key listed is a key of the query of some
options value of the variant. -/
theorem C19_keys_are_the_vocabulary :
    (∀ (params : Params) (v : Variant) (key : String), params.variant = some v →
      key ∈ (buildParams params).keys → key ∈ vocabulary v) ∧
    (∀ (v : Variant) (key : String), key ∈ vocabulary v →
      ∃ params : Params, params.variant = some v ∧ key ∈ (buildParams params).keys) := by
  constructor
  · intro params v key hv h
    exact keys_subset_vocabulary params v key hv h
  · intro v key h
    refine ⟨fullParams v, ?_, vocabulary_subset_keys_full v key h⟩
    cases v <;> rfl

/-- Witness of C19: `keep_closed_markets` is in the vocabulary of the search endpoint and is
a key of the query of some search options; `limit`, a key of the query of comments options
with a limit of 5, is in the vocabulary of the comments endpoint. -/
theorem C19_keys_are_the_vocabulary_witness :
    ("keep_closed_markets" ∈ vocabulary .search ∧
      ∃ params : Params, params.variant = some .search ∧
        "keep_closed_markets" ∈ (buildParams params).keys) ∧
    ((Params.comments (some { Limit := 5 })).variant = some .comments ∧
      "limit" ∈ (buildParams (.comments (some { Limit := 5 }))).keys ∧
      "limit" ∈ vocabulary .comments) :=
  ⟨⟨by decide, C19_keys_are_the_vocabulary.2 .search "keep_closed_markets" (by decide)⟩,
    ⟨rfl, by decide,
      C19_keys_are_the_vocabulary.1 (.comments (some { Limit := 5 })) .comments "limit" rfl
        (by decide)⟩⟩

/-! ## Client configuration -/

/-- C20: `NewClient` gives the default base address and a timeout of 30 seconds (a
`time.Duration`, in nanoseconds); `NewClientWithOptions(b, t)` gives the base address `b`,
or the default one when `b` is empty, and the timeout `t`; `SetTimeout` sets the timeout to
its argument and leaves the base address as it was. -/
theorem C20_client_configuration (b : String) (t t' : Int) (c : Client) :
    NewClient.baseURL = "https://gamma-api.polymarket.com" ∧
    NewClient.baseURL = DefaultBaseURL ∧
    NewClient.Timeout = 30 * 1000000000 ∧
    (NewClientWithOptions b t).baseURL = (if b = "" then DefaultBaseURL else b) ∧
    (NewClientWithOptions b t).Timeout = t ∧
    (c.SetTimeout t').Timeout = t' ∧
    (c.SetTimeout t').baseURL = c.baseURL :=
  ⟨rfl, rfl, rfl, rfl, rfl, rfl, rfl⟩

/-! ## Search by tag and fetch by identifier -/

/-- C22: for every non-empty query text `query`, every sequence `tags` and every search
options pointer `p`, `SearchByTag(query, tags, p)` dispatches one search request whose query
holds `query` alone under `q` and the elements of `tags`, in order, alone under
`events_tag`, whatever `events_tag` the caller had; under every other key, `search_tags` and
`search_profiles` among them, it holds what the query of `p` alone holds. -/
theorem C22_search_by_tag_sets_tags (env : Env) (c : Client) (query : String)
    (tags : List String) (p : Option SearchParams) (hq : query ≠ "") :
    (c.SearchByTag env query tags p).calls =
        [{ baseURL := c.baseURL, method := "GET", endpoint := "/public-search",
           params := buildParams (.search (some (withTags p query tags))) }] ∧
      (buildParams (.search (some (withTags p query tags)))).lookup "q" = [query] ∧
      (buildParams (.search (some (withTags p query tags)))).lookup "events_tag" = tags ∧
      (buildParams (.search (some (withTags p query tags)))).lookup "search_tags" =
        (buildParams (.search p)).lookup "search_tags" ∧
      (buildParams (.search (some (withTags p query tags)))).lookup "search_profiles" =
        (buildParams (.search p)).lookup "search_profiles" ∧
      (∀ key, key ≠ "q" → key ≠ "events_tag" →
        (buildParams (.search (some (withTags p query tags)))).lookup key =
          (buildParams (.search p)).lookup key) := by
  have hQ : (withTags p query tags).Q ≠ "" := hq
  have hother : ∀ key, key ≠ "q" → key ≠ "events_tag" →
      (buildParams (.search (some (withTags p query tags)))).lookup key =
        (buildParams (.search p)).lookup key := by
    intro key h1 h2
    cases p <;> simp [buildParams, buildSearchParams, withTags, h1, h2]
  refine ⟨?_, ?_, ?_, hother _ (by decide) (by decide), hother _ (by decide) (by decide),
    hother⟩
  · rw [calls_SearchByTag, calls_Search env c _ hQ]
  · simp [buildParams, buildSearchParams, withTags, hq]
  · simp [buildParams, buildSearchParams, withTags]

/-- Witness of C22: a search for `rain` by the tags `weather` and `uk`, by a caller who had
set the tag `sports` and asked for tags. -/
theorem C22_search_by_tag_sets_tags_witness :
    "rain" ≠ "" ∧
      (NewClient.SearchByTag (envEmptyList 200) "rain" ["weather", "uk"]
        (some { EventsTag := ["sports"], SearchTags := some true })).calls =
        [{ baseURL := DefaultBaseURL, method := "GET", endpoint := "/public-search",
           params := Values.mk [("q", ["rain"]), ("events_tag", ["weather", "uk"]),
             ("search_tags", ["true"])] }] :=
  ⟨by decide,
    (C22_search_by_tag_sets_tags (envEmptyList 200) NewClient "rain" ["weather", "uk"]
      (some { EventsTag := ["sports"], SearchTags := some true }) (by decide)).1⟩

/-- C23, as the code has it: for every identifier string `id`, the empty one and those
holding `/` or `?` included, `GetMarket(id)` and `GetEvent(id)` invoke the request dispatcher
once, with no query, and the target address it builds and gives to `http.NewRequest` is the
base followed by `/markets/` or `/events/` and by `id` as it is. When `http.NewRequest`
accepts that address, exactly one request, made with that address, is handed to the
transport, whose failure is the one reported; when it rejects the address, no request is
made and the error `failed to create request` is returned. `GetMarketWithParams` and
`GetEventWithParams` do the same with the query of their options, whose keys are among
`include_tag`, respectively `include_chat` and `include_template`, so that their address is
the same one, followed by `?` and the encoded flags when there are some. The address of a
request is the text given to `http.NewRequest`; how `net/http` then writes it on the wire,
where a space goes out as `%20`, is not modelled. -/
theorem C23_fetch_by_identifier_address (env : Env) (c : Client) (id : String)
    (mp : Option GetMarketParams) (ep : Option GetEventParams) :
    ((c.GetMarket env id).calls =
        [{ baseURL := c.baseURL, method := "GET", endpoint := "/markets/" ++ id,
           params := Values.empty }] ∧
      fullURL c.baseURL ("/markets/" ++ id) Values.empty = c.baseURL ++ "/markets/" ++ id ∧
      (env.NewRequest "GET" (c.baseURL ++ "/markets/" ++ id) = none →
        (c.GetMarket env id).requests env =
            [newRequest "GET" (c.baseURL ++ "/markets/" ++ id)] ∧
          ∀ err, env.Do c.Timeout (newRequest "GET" (c.baseURL ++ "/markets/" ++ id)) =
              .error err →
            (c.GetMarket env id).result =
              .error (Errorfw ("failed to fetch market " ++ id ++ ": ")
                (Errorfw "failed to make request: " (.external err)))) ∧
      (∀ err, env.NewRequest "GET" (c.baseURL ++ "/markets/" ++ id) = some err →
        (c.GetMarket env id).requests env = [] ∧
          (c.GetMarket env id).result =
            .error (Errorfw ("failed to fetch market " ++ id ++ ": ")
              (Errorfw "failed to create request: " (.external err))))) ∧
    ((c.GetEvent env id).calls =
        [{ baseURL := c.baseURL, method := "GET", endpoint := "/events/" ++ id,
           params := Values.empty }] ∧
      fullURL c.baseURL ("/events/" ++ id) Values.empty = c.baseURL ++ "/events/" ++ id ∧
      (env.NewRequest "GET" (c.baseURL ++ "/events/" ++ id) = none →
        (c.GetEvent env id).requests env =
            [newRequest "GET" (c.baseURL ++ "/events/" ++ id)] ∧
          ∀ err, env.Do c.Timeout (newRequest "GET" (c.baseURL ++ "/events/" ++ id)) =
              .error err →
            (c.GetEvent env id).result =
              .error (Errorfw ("failed to fetch event " ++ id ++ ": ")
                (Errorfw "failed to make request: " (.external err)))) ∧
      (∀ err, env.NewRequest "GET" (c.baseURL ++ "/events/" ++ id) = some err →
        (c.GetEvent env id).requests env = [] ∧
          (c.GetEvent env id).result =
            .error (Errorfw ("failed to fetch event " ++ id ++ ": ")
              (Errorfw "failed to create request: " (.external err))))) ∧
    ((c.GetMarketWithParams env id mp).calls =
        [{ baseURL := c.baseURL, method := "GET", endpoint := "/markets/" ++ id,
           params := buildParams (.getMarket mp) }] ∧
      (∀ key ∈ (buildParams (.getMarket mp)).keys, key = "include_tag") ∧
      fullURL c.baseURL ("/markets/" ++ id) (buildParams (.getMarket mp)) =
        (if (buildParams (.getMarket mp)).keys = [] then c.baseURL ++ "/markets/" ++ id
        else c.baseURL ++ "/markets/" ++ id ++ "?" ++ (buildParams (.getMarket mp)).Encode) ∧
      (env.NewRequest "GET"
          (fullURL c.baseURL ("/markets/" ++ id) (buildParams (.getMarket mp))) = none →
        (c.GetMarketWithParams env id mp).requests env =
          [newRequest "GET"
            (fullURL c.baseURL ("/markets/" ++ id) (buildParams (.getMarket mp)))]) ∧
      (∀ err, env.NewRequest "GET"
          (fullURL c.baseURL ("/markets/" ++ id) (buildParams (.getMarket mp))) = some err →
        (c.GetMarketWithParams env id mp).requests env = [])) ∧
    ((c.GetEventWithParams env id ep).calls =
        [{ baseURL := c.baseURL, method := "GET", endpoint := "/events/" ++ id,
           params := buildParams (.getEvent ep) }] ∧
      (∀ key ∈ (buildParams (.getEvent ep)).keys,
        key = "include_chat" ∨ key = "include_template") ∧
      fullURL c.baseURL ("/events/" ++ id) (buildParams (.getEvent ep)) =
        (if (buildParams (.getEvent ep)).keys = [] then c.baseURL ++ "/events/" ++ id
        else c.baseURL ++ "/events/" ++ id ++ "?" ++ (buildParams (.getEvent ep)).Encode) ∧
      (env.NewRequest "GET"
          (fullURL c.baseURL ("/events/" ++ id) (buildParams (.getEvent ep))) = none →
        (c.GetEventWithParams env id ep).requests env =
          [newRequest "GET"
            (fullURL c.baseURL ("/events/" ++ id) (buildParams (.getEvent ep)))]) ∧
      (∀ err, env.NewRequest "GET"
          (fullURL c.baseURL ("/events/" ++ id) (buildParams (.getEvent ep))) = some err →
        (c.GetEventWithParams env id ep).requests env = [])) := by
  have hempty : Values.empty.keys = [] := rfl
  have hbare : ∀ pre : String,
      fullURL c.baseURL (pre ++ id) Values.empty = c.baseURL ++ pre ++ id := by
    intro pre
    rw [fullURL_cases, if_pos hempty, String.append_assoc]
  have hcM := calls_GetMarketWithParams env c id
  have hcE := calls_GetEventWithParams env c id
  refine ⟨⟨hcM none, hbare _, ?_, ?_⟩, ⟨hcE none, hbare _, ?_, ?_⟩,
    ⟨hcM mp, ?_, ?_, ?_, ?_⟩, ⟨hcE ep, ?_, ?_, ?_, ?_⟩⟩
  · intro hNew
    rw [← hbare] at hNew ⊢
    refine ⟨?_, ?_⟩
    · exact (requests_of_calls _ env _ (hcM none)).trans
        (requests_accepted _ env hNew)
    · intro err hDo
      exact result_GetMarketWithParams_of_error env c id none _
        (result_makeRequest_transport env c "GET" _ _ err hNew hDo)
  · intro err hNew
    rw [← hbare] at hNew
    refine ⟨?_, ?_⟩
    · exact (requests_of_calls _ env _ (hcM none)).trans
        (requests_rejected _ env err hNew)
    · exact result_GetMarketWithParams_of_error env c id none _
        (result_makeRequest_rejected env c "GET" _ _ err hNew)
  · intro hNew
    rw [← hbare] at hNew ⊢
    refine ⟨?_, ?_⟩
    · exact (requests_of_calls _ env _ (hcE none)).trans
        (requests_accepted _ env hNew)
    · intro err hDo
      exact result_GetEventWithParams_of_error env c id none _
        (result_makeRequest_transport env c "GET" _ _ err hNew hDo)
  · intro err hNew
    rw [← hbare] at hNew
    refine ⟨?_, ?_⟩
    · exact (requests_of_calls _ env _ (hcE none)).trans
        (requests_rejected _ env err hNew)
    · exact result_GetEventWithParams_of_error env c id none _
        (result_makeRequest_rejected env c "GET" _ _ err hNew)
  · intro key hkey
    have := keys_subset_vocabulary (.getMarket mp) .getMarket key rfl hkey
    simpa [vocabulary] using this
  · rw [fullURL_cases]
    simp only [String.append_assoc]
  · intro hNew
    exact (requests_of_calls _ env _ (hcM mp)).trans
      (requests_accepted _ env hNew)
  · intro err hNew
    exact (requests_of_calls _ env _ (hcM mp)).trans
      (requests_rejected _ env err hNew)
  · intro key hkey
    have := keys_subset_vocabulary (.getEvent ep) .getEvent key rfl hkey
    simpa [vocabulary] using this
  · rw [fullURL_cases]
    simp only [String.append_assoc]
  · intro hNew
    exact (requests_of_calls _ env _ (hcE ep)).trans
      (requests_accepted _ env hNew)
  · intro err hNew
    exact (requests_of_calls _ env _ (hcE ep)).trans
      (requests_rejected _ env err hNew)

/-- Witness of C23 as the code has it: the market `will-it-rain` is asked with one request,
made with the base address followed by `/markets/will-it-rain`. -/
theorem C23_fetch_by_identifier_address_witness :
    envStrict.NewRequest "GET" (DefaultBaseURL ++ "/markets/" ++ "will-it-rain") = none ∧
      (NewClient.GetMarket envStrict "will-it-rain").requests envStrict =
        [newRequest "GET" (DefaultBaseURL ++ "/markets/" ++ "will-it-rain")] :=
  ⟨by decide,
    ((C23_fetch_by_identifier_address envStrict NewClient "will-it-rain" none none).1.2.2.1
      (by decide)).1⟩

/-- Counterexample to C23 as stated: for the identifier `%zz`, whose address `url.Parse`
rejects for its malformed escape, `GetMarket` and `GetEvent` make no request; they return
the error of `http.NewRequest`, wrapped. -/
theorem C23_counterexample_malformed_identifier :
    (NewClient.GetMarket envStrict "%zz").requests envStrict = [] ∧
      (NewClient.GetEvent envStrict "%zz").requests envStrict = [] ∧
      (∃ err, (NewClient.GetMarket envStrict "%zz").result = .error err ∧
        err.Error = "failed to fetch market %zz: failed to create request: parse \"https://gamma-api.polymarket.com/markets/%zz\": invalid URL escape \"%zz\"") :=
  ⟨by decide, by decide, ⟨_, rfl, by decide⟩⟩

/-! ## Plain fields of the options: ascending and the integers -/

/-- C24: in the markets, events and comments options the plain boolean `Ascending` is
written only as `ascending=true`: when it is false the query has no `ascending` pair, so no
options value of these three variants, a nil pointer included, gives `ascending=false`. In
the search options, where `Ascending` is a pointer, a present false gives
`ascending=false`. -/
theorem C24_ascending_only_true_in_lists :
    (∀ m : MarketsParams, (buildParams (.markets (some m))).lookup "ascending" =
      if m.Ascending then ["true"] else []) ∧
    (∀ e : EventsParams, (buildParams (.events (some e))).lookup "ascending" =
      if e.Ascending then ["true"] else []) ∧
    (∀ cm : CommentsParams, (buildParams (.comments (some cm))).lookup "ascending" =
      if cm.Ascending then ["true"] else []) ∧
    (∀ (m : Option MarketsParams) (e : Option EventsParams) (cm : Option CommentsParams),
      (buildParams (.markets m)).lookup "ascending" ≠ ["false"] ∧
      (buildParams (.events e)).lookup "ascending" ≠ ["false"] ∧
      (buildParams (.comments cm)).lookup "ascending" ≠ ["false"]) ∧
    (∀ s : SearchParams, s.Ascending = some false →
      (buildParams (.search (some s))).lookup "ascending" = ["false"]) := by
  have hm : ∀ m : MarketsParams, (buildParams (.markets (some m))).lookup "ascending" =
      if m.Ascending then ["true"] else [] := by
    intro m
    simp [buildParams, buildMarketsParams]
  have he : ∀ e : EventsParams, (buildParams (.events (some e))).lookup "ascending" =
      if e.Ascending then ["true"] else [] := by
    intro e
    simp [buildParams, buildEventsParams]
  have hc : ∀ cm : CommentsParams, (buildParams (.comments (some cm))).lookup "ascending" =
      if cm.Ascending then ["true"] else [] := by
    intro cm
    simp [buildParams, buildCommentsParams]
  refine ⟨hm, he, hc, ?_, ?_⟩
  · intro m e cm
    refine ⟨?_, ?_, ?_⟩
    · cases m with
      | none => simp [buildParams]
      | some m => rw [hm]; cases m.Ascending <;> simp
    · cases e with
      | none => simp [buildParams]
      | some e => rw [he]; cases e.Ascending <;> simp
    · cases cm with
      | none => simp [buildParams]
      | some cm => rw [hc]; cases cm.Ascending <;> simp
  · intro s hs
    simp [buildParams, buildSearchParams, hs, FormatBool]

/-- Witness of C24: search options with `Ascending` present and false give
`ascending=false`. -/
theorem C24_ascending_only_true_in_lists_witness :
    ({ Q := "rain", Ascending := some false } : SearchParams).Ascending = some false ∧
      (buildParams (.search (some { Q := "rain", Ascending := some false }))).lookup
        "ascending" = ["false"] :=
  ⟨rfl, C24_ascending_only_true_in_lists.2.2.2.2 { Q := "rain", Ascending := some false } rfl⟩

/-- C25: the plain integer fields of the options (`limit` and `offset` of the markets, events
and comments options, `page` and `limit_per_type` of the search options) give a pair if and
only if their value is strictly positive, and then the one pair with the decimal text of the
value; zero and every negative value are left out. The integers held as a pointer (`tag_id`
of the events options, `parent_entity_id`, `keep_closed_markets`) are written for every
value they point to, zero and the negative ones included. -/
theorem C25_plain_integers_positive_only (m : MarketsParams) (e : EventsParams)
    (cm : CommentsParams) (s : SearchParams) :
    (positiveOnly (buildParams (.markets (some m))) "limit" m.Limit ∧
      positiveOnly (buildParams (.markets (some m))) "offset" m.Offset ∧
      positiveOnly (buildParams (.events (some e))) "limit" e.Limit ∧
      positiveOnly (buildParams (.events (some e))) "offset" e.Offset ∧
      positiveOnly (buildParams (.comments (some cm))) "limit" cm.Limit ∧
      positiveOnly (buildParams (.comments (some cm))) "offset" cm.Offset ∧
      positiveOnly (buildParams (.search (some s))) "page" s.Page ∧
      positiveOnly (buildParams (.search (some s))) "limit_per_type" s.LimitPerType) ∧
    (∀ n : Int, e.TagID = some n →
      (buildParams (.events (some e))).lookup "tag_id" = [Itoa n]) ∧
    (∀ n : Int, cm.ParentEntityID = some n →
      (buildParams (.comments (some cm))).lookup "parent_entity_id" = [Itoa n]) ∧
    (∀ n : Int, s.KeepClosedMarkets = some n →
      (buildParams (.search (some s))).lookup "keep_closed_markets" = [Itoa n]) := by
  refine ⟨⟨⟨?_, ?_⟩, ⟨?_, ?_⟩, ⟨?_, ?_⟩, ⟨?_, ?_⟩, ⟨?_, ?_⟩, ⟨?_, ?_⟩, ⟨?_, ?_⟩, ⟨?_, ?_⟩⟩,
    ?_, ?_, ?_⟩
  all_goals first
    | (intro n hn
       simp [buildParams, buildEventsParams, buildCommentsParams, buildSearchParams, hn])
    | simp [buildParams, buildMarketsParams, buildEventsParams, buildCommentsParams,
        buildSearchParams]

/-- Witness of C25: events options with `Limit` -3, `Offset` 0 and `TagID` pointing to -1
give the query `tag_id=-1` with neither `limit` nor `offset`. -/
theorem C25_plain_integers_positive_only_witness :
    ({ Limit := -3, Offset := 0, TagID := some (-1) } : EventsParams).TagID = some (-1) ∧
      (buildParams (.events (some { Limit := -3, Offset := 0, TagID := some (-1) }))).lookup
        "tag_id" = ["-1"] ∧
      (buildParams (.events (some { Limit := -3, Offset := 0, TagID := some (-1) }))).Has
        "limit" = false ∧
      (buildParams (.events (some { Limit := -3, Offset := 0, TagID := some (-1) }))).Has
        "offset" = false :=
  ⟨rfl,
    (C25_plain_integers_positive_only {} { Limit := -3, Offset := 0, TagID := some (-1) } {}
      {}).2.1 (-1) rfl,
    (C25_plain_integers_positive_only {} { Limit := -3, Offset := 0, TagID := some (-1) } {}
      {}).1.2.2.1.1,
    (C25_plain_integers_positive_only {} { Limit := -3, Offset := 0, TagID := some (-1) } {}
      {}).1.2.2.2.1.1⟩

/-! ## The query argument of the search wrappers -/

/-- C26: in `SearchEvents`, `SearchProfiles`, `SearchTags` and `SearchByTag` the query
argument takes the place of the `Q` of the options the caller supplied: for every non-empty
argument the one request dispatched holds the argument alone under `q`, and the empty
argument is rejected with the local validation error `search query (Q) is required` with no
request dispatched, also when the options supplied held a non-empty `Q`. -/
theorem C26_query_argument_replaces_Q (env : Env) (c : Client) (query : String)
    (tags : List String) (p : Option SearchParams) :
    (query ≠ "" →
      (∃ call, (c.SearchEvents env query p).calls = [call] ∧
        call.params.lookup "q" = [query]) ∧
      (∃ call, (c.SearchProfiles env query p).calls = [call] ∧
        call.params.lookup "q" = [query]) ∧
      (∃ call, (c.SearchTags env query p).calls = [call] ∧
        call.params.lookup "q" = [query]) ∧
      (∃ call, (c.SearchByTag env query tags p).calls = [call] ∧
        call.params.lookup "q" = [query])) ∧
    (query = "" →
      ((c.SearchEvents env query p).result =
          .error (.errorString "search query (Q) is required") ∧
        (c.SearchEvents env query p).calls = []) ∧
      ((c.SearchProfiles env query p).result =
          .error (.errorString "search query (Q) is required") ∧
        (c.SearchProfiles env query p).calls = []) ∧
      ((c.SearchTags env query p).result =
          .error (.errorString "search query (Q) is required") ∧
        (c.SearchTags env query p).calls = []) ∧
      ((c.SearchByTag env query tags p).result =
          .error (.errorString "search query (Q) is required") ∧
        (c.SearchByTag env query tags p).calls = [])) := by
  constructor
  · intro hq
    have hF : ∀ a b, (withFlags p query a b).Q ≠ "" := fun _ _ => hq
    have hT : (withTags p query tags).Q ≠ "" := hq
    rw [calls_SearchEvents, calls_SearchProfiles, calls_SearchTags, calls_SearchByTag,
      calls_Search env c _ (hF false false), calls_Search env c _ (hF false true),
      calls_Search env c _ (hF true false), calls_Search env c _ hT]
    exact ⟨⟨_, rfl, lookup_q_withFlags p query false false hq⟩,
      ⟨_, rfl, lookup_q_withFlags p query false true hq⟩,
      ⟨_, rfl, lookup_q_withFlags p query true false hq⟩,
      ⟨_, rfl, lookup_q_withTags p query tags hq⟩⟩
  · rintro rfl
    rw [SearchEvents_empty_query, SearchProfiles_empty_query, SearchTags_empty_query,
      SearchByTag_empty_query]
    exact ⟨⟨rfl, rfl⟩, ⟨rfl, rfl⟩, ⟨rfl, rfl⟩, ⟨rfl, rfl⟩⟩

/-- Witness of C26: `SearchProfiles` with the empty argument is rejected with no request
although the caller's options held the query `rain`; with the argument `snow` the request
holds `q=snow`. -/
theorem C26_query_argument_replaces_Q_witness :
    ((NewClient.SearchProfiles (envEmptyList 200) "" (some { Q := "rain" })).result =
        .error (.errorString "search query (Q) is required") ∧
      (NewClient.SearchProfiles (envEmptyList 200) "" (some { Q := "rain" })).calls = []) ∧
    ("snow" ≠ "" ∧
      ∃ call, (NewClient.SearchProfiles (envEmptyList 200) "snow"
          (some { Q := "rain" })).calls = [call] ∧
        call.params.lookup "q" = ["snow"]) :=
  ⟨((C26_query_argument_replaces_Q (envEmptyList 200) NewClient "" []
      (some { Q := "rain" })).2 rfl).2.1,
    by decide,
    ((C26_query_argument_replaces_Q (envEmptyList 200) NewClient "snow" []
      (some { Q := "rain" })).1 (by decide)).2.1⟩

end Polymarket
